import Mathlib

/-!
# Verification of the vuDataSim web-UI core (shallow embedding)

This file embeds the core logic of the `vudatasim-web-ui` repository in
Lean 4 and proves properties about it.  The embedding covers:

* the duration parser/formatter (`_parse_duration` / `_format_duration`
  from `src/core/yaml_editor.py`),
* the checksum-guarded YAML file store (`write_main_config`,
  `write_module_config`, `write_submodule_config` and the unique-key
  mutators from `src/core/yaml_editor.py`),
* the EPS calculation engine (`calculate_eps`,
  `suggest_uniquekey_for_target_eps`, `get_module_config`,
  `get_submodule_config` from `src/core/eps_calculator.py`),
* the cluster manager's submodule discovery and remote bulk edit
  (`get_all_submodule_configs`, `bulk_edit_submodule_unique_keys`,
  `_calculate_checksum` from `src/core/cluster_manager.py`).

Modelling conventions:

* Python floats are modelled as exact rationals (`Rat`); at the scales
  involved every arithmetic step in the source is exact in double
  precision as well.
* The file system is an association list from path to content; YAML
  documents are modelled by an inductive (`YDoc`) separating unparseable
  content, non-mapping documents and mappings of the keys the code
  touches.
* Fallible external effects (hashing, serialisation, the remote
  transport) are supplied as explicit oracle parameters so that failure
  injection is expressible.
* State-changing operations additionally return an event trace so that
  "no backup / no write happened" claims are directly statable.
-/

namespace VuData

/-! ## Constants (src/core/config.py) -/

def DEFAULT_UNIQUE_KEY : Int := 1

def MAX_UNIQUE_KEY : Int := 1000000000

/-! ## Python numeric primitives -/

/-- Floor of a rational, written so that it evaluates by kernel reduction. -/
def ratFloor (q : Rat) : Int := q.num / (q.den : Int)

theorem ratFloor_eq (q : Rat) : ratFloor q = ⌊q⌋ := Rat.floor_def.symm

/-- Ceiling of a rational. -/
def ratCeil (q : Rat) : Int := -ratFloor (-q)

theorem ratCeil_eq (q : Rat) : ratCeil q = ⌈q⌉ := by
  rw [ratCeil, ratFloor_eq, Int.floor_neg, neg_neg]

/-- Python `int(x)` on a float: truncation toward zero. -/
def pyInt (q : Rat) : Int := if 0 ≤ q then ratFloor q else ratCeil q

/-- Python `x // y` on floats (floor division), as a rational. -/
def pyFloorDiv (a b : Rat) : Rat := ((ratFloor (a / b) : Int) : Rat)

/-- Python `round(x)` with no digits argument: nearest integer, ties to even. -/
def pyRound (q : Rat) : Int :=
  let f := ratFloor q
  let r := q - (f : Rat)
  if r < 1/2 then f
  else if 1/2 < r then f + 1
  else if f % 2 = 0 then f else f + 1

/-! ## Duration parser (`SafeYAMLEditor._parse_duration` / `_format_duration`) -/

inductive DurationError
  | invalidFormat (s : String)
deriving DecidableEq

/-- Value of a big-endian list of decimal digit characters,
    mirroring Python `int(value)` on the matched digit group. -/
def digitsVal (ds : List Char) : Nat :=
  ds.foldl (fun a c => 10 * a + (c.toNat - 48)) 0

/-- Python `str.strip()` on the character list of a string. -/
def stripStr (s : String) : List Char :=
  ((s.data.dropWhile Char.isWhitespace).reverse.dropWhile Char.isWhitespace).reverse

/-- The unit suffixes accepted by the regex `^(\d+)(ms|s|m|h)$` together
    with their multipliers in seconds. -/
def unitMult : List Char → Option Rat
  | ['m', 's'] => some (1/1000)
  | ['s'] => some 1
  | ['m'] => some 60
  | ['h'] => some 3600
  | _ => none

/-- Model of `SafeYAMLEditor._parse_duration`.  Empty input returns 1.0;
    otherwise the stripped text must match `^(\d+)(ms|s|m|h)$` (the unit
    alternatives contain no digit, so the greedy digit group is exactly
    the maximal digit prefix); anything else raises `ValueError`. -/
def parseDuration (s : String) : Except DurationError Rat :=
  if s = "" then .ok 1
  else
    let cs := stripStr s
    let ds := cs.takeWhile Char.isDigit
    let rest := cs.dropWhile Char.isDigit
    if ds = [] then .error (.invalidFormat s)
    else
      match unitMult rest with
      | some m => .ok ((digitsVal ds : Rat) * m)
      | none => .error (.invalidFormat s)

/-- Little-endian decimal digits of a natural number. -/
def natDigitsRev (n : Nat) : List Nat :=
  if h : n < 10 then [n]
  else n % 10 :: natDigitsRev (n / 10)
decreasing_by
  exact Nat.div_lt_self (by omega) (by omega)

/-- Decimal rendering of a natural number as characters. -/
def natRender (n : Nat) : List Char :=
  ((natDigitsRev n).map Nat.digitChar).reverse

/-- Decimal rendering of an integer, mirroring Python `f"{i}"`. -/
def intRender (i : Int) : List Char :=
  if i < 0 then '-' :: natRender i.natAbs else natRender i.natAbs

/-- Model of `SafeYAMLEditor._format_duration`. -/
def formatDuration (seconds : Rat) : String :=
  if seconds < 1 then String.mk (intRender (pyInt (seconds * 1000)) ++ ['m', 's'])
  else if seconds < 60 then String.mk (intRender (pyInt seconds) ++ ['s'])
  else if seconds < 3600 then String.mk (intRender (pyInt (pyFloorDiv seconds 60)) ++ ['m'])
  else String.mk (intRender (pyInt (pyFloorDiv seconds 3600)) ++ ['h'])

/-- The granularity of the unit `_format_duration` chooses. -/
def formatStep (seconds : Rat) : Rat :=
  if seconds < 1 then 1/1000
  else if seconds < 60 then 1
  else if seconds < 3600 then 60
  else 3600

/-! ### Decimal rendering round-trips through the digit parser -/

/-- Value of a little-endian digit list. -/
def valLE : List Nat → Nat
  | [] => 0
  | d :: ds => d + 10 * valLE ds

theorem natDigitsRev_lt_ten (n : Nat) : ∀ d ∈ natDigitsRev n, d < 10 := by
  induction n using natDigitsRev.induct with
  | case1 n h =>
    rw [natDigitsRev, dif_pos h]
    intro d hd
    have : d = n := by simpa using hd
    omega
  | case2 n h ih =>
    rw [natDigitsRev, dif_neg h]
    intro d hd
    rcases List.mem_cons.mp hd with h1 | h2
    · exact h1 ▸ Nat.mod_lt _ (by omega)
    · exact ih d h2

theorem valLE_natDigitsRev (n : Nat) : valLE (natDigitsRev n) = n := by
  induction n using natDigitsRev.induct with
  | case1 n h => rw [natDigitsRev, dif_pos h]; simp [valLE]
  | case2 n h ih =>
    rw [natDigitsRev, dif_neg h]
    simp only [valLE, ih]
    omega

theorem natDigitsRev_ne_nil (n : Nat) : natDigitsRev n ≠ [] := by
  rw [natDigitsRev]
  split <;> simp

theorem digitChar_isDigit {d : Nat} (h : d < 10) : (Nat.digitChar d).isDigit = true := by
  interval_cases d <;> decide

theorem digitChar_not_ws {d : Nat} (h : d < 10) : (Nat.digitChar d).isWhitespace = false := by
  interval_cases d <;> decide

theorem digitChar_toNat {d : Nat} (h : d < 10) : (Nat.digitChar d).toNat - 48 = d := by
  interval_cases d <;> decide

theorem foldl_digits (L : List Nat) (hL : ∀ d ∈ L, d < 10) (a : Nat) :
    ((L.map Nat.digitChar).reverse).foldl (fun x c => 10 * x + (c.toNat - 48)) a =
      a * 10 ^ L.length + valLE L := by
  induction L generalizing a with
  | nil => simp [valLE]
  | cons d ds ih =>
    have hd : d < 10 := hL d (List.mem_cons_self _ _)
    have hds : ∀ e ∈ ds, e < 10 := fun e he => hL e (List.mem_cons_of_mem _ he)
    simp only [List.map_cons, List.reverse_cons, List.foldl_append, List.foldl_cons,
      List.foldl_nil, ih hds, digitChar_toNat hd, valLE, List.length_cons]
    ring

theorem digitsVal_natRender (n : Nat) : digitsVal (natRender n) = n := by
  rw [digitsVal, natRender, foldl_digits _ (natDigitsRev_lt_ten n)]
  simp [valLE_natDigitsRev]

theorem natRender_ne_nil (n : Nat) : natRender n ≠ [] := by
  rw [natRender]
  simp [natDigitsRev_ne_nil]

theorem natRender_isDigit (n : Nat) : ∀ c ∈ natRender n, c.isDigit = true := by
  intro c hc
  rw [natRender] at hc
  rw [List.mem_reverse, List.mem_map] at hc
  obtain ⟨d, hd, rfl⟩ := hc
  exact digitChar_isDigit (natDigitsRev_lt_ten n d hd)

theorem natRender_not_ws (n : Nat) : ∀ c ∈ natRender n, c.isWhitespace = false := by
  intro c hc
  rw [natRender] at hc
  rw [List.mem_reverse, List.mem_map] at hc
  obtain ⟨d, hd, rfl⟩ := hc
  exact digitChar_not_ws (natDigitsRev_lt_ten n d hd)

/-! ### takeWhile / dropWhile / strip facts -/

theorem takeWhile_append_of_all {p : Char → Bool} {xs ys : List Char}
    (h : ∀ c ∈ xs, p c = true) :
    (xs ++ ys).takeWhile p = xs ++ ys.takeWhile p := by
  induction xs with
  | nil => simp
  | cons a t ih =>
    have ha : p a = true := h a (List.mem_cons_self _ _)
    simp only [List.cons_append, List.takeWhile_cons, ha, if_true]
    rw [ih (fun c hc => h c (List.mem_cons_of_mem _ hc))]

theorem dropWhile_append_of_all {p : Char → Bool} {xs ys : List Char}
    (h : ∀ c ∈ xs, p c = true) :
    (xs ++ ys).dropWhile p = ys.dropWhile p := by
  induction xs with
  | nil => simp
  | cons a t ih =>
    have ha : p a = true := h a (List.mem_cons_self _ _)
    simp only [List.cons_append, List.dropWhile_cons, ha, if_true]
    exact ih (fun c hc => h c (List.mem_cons_of_mem _ hc))

theorem dropWhile_eq_self_of_all {p : Char → Bool} {l : List Char}
    (h : ∀ c ∈ l, p c = false) : l.dropWhile p = l := by
  cases l with
  | nil => rfl
  | cons a t => simp [List.dropWhile_cons, h a (List.mem_cons_self _ _)]

theorem stripStr_mk_of_no_ws {l : List Char} (h : ∀ c ∈ l, c.isWhitespace = false) :
    stripStr (String.mk l) = l := by
  have hd : (String.mk l).data = l := rfl
  rw [stripStr, hd, dropWhile_eq_self_of_all h]
  rw [dropWhile_eq_self_of_all (fun c hc => h c (List.mem_reverse.mp hc))]
  exact List.reverse_reverse l

theorem mk_ne_empty {l : List Char} (h : l ≠ []) : String.mk l ≠ "" := by
  intro he
  exact h (congrArg String.data he)

/-! ### Inversion for the accepted units -/

theorem unitMult_inv {u : List Char} {m : Rat} (hu : unitMult u = some m) :
    (u = ['m', 's'] ∧ m = 1/1000) ∨ (u = ['s'] ∧ m = 1) ∨ (u = ['m'] ∧ m = 60) ∨
    (u = ['h'] ∧ m = 3600) := by
  unfold unitMult at hu
  split at hu
  · exact Or.inl ⟨rfl, (Option.some.inj hu).symm⟩
  · exact Or.inr (Or.inl ⟨rfl, (Option.some.inj hu).symm⟩)
  · exact Or.inr (Or.inr (Or.inl ⟨rfl, (Option.some.inj hu).symm⟩))
  · exact Or.inr (Or.inr (Or.inr ⟨rfl, (Option.some.inj hu).symm⟩))
  · exact absurd hu (by simp)

theorem unitMult_chars {u : List Char} {m : Rat} (hu : unitMult u = some m) :
    u.takeWhile Char.isDigit = [] ∧ u.dropWhile Char.isDigit = u ∧
      (∀ c ∈ u, c.isWhitespace = false) := by
  rcases unitMult_inv hu with ⟨rfl, _⟩ | ⟨rfl, _⟩ | ⟨rfl, _⟩ | ⟨rfl, _⟩ <;>
    exact ⟨by decide, by decide, by decide⟩

/-! ### Parser evaluation lemmas -/

/-- The parser on a stripped decomposition `digits ++ unit`. -/
theorem parseDuration_shape (s : String) (ds u : List Char) (m : Rat)
    (hsplit : stripStr s = ds ++ u) (hds : ds ≠ [])
    (hdig : ∀ c ∈ ds, c.isDigit = true) (hu : unitMult u = some m) :
    parseDuration s = .ok ((digitsVal ds : Rat) * m) := by
  obtain ⟨hut, hud, _⟩ := unitMult_chars hu
  have hne : s ≠ "" := by
    intro he
    rw [he] at hsplit
    have : ds ++ u = [] := hsplit.symm
    exact hds (List.append_eq_nil.mp this).1
  rw [parseDuration, if_neg hne]
  simp only [hsplit, takeWhile_append_of_all hdig, hut, List.append_nil,
    dropWhile_append_of_all hdig, hud, if_neg hds, hu]

/-- The parser on a rendered `n ++ unit` string (as produced by the formatter). -/
theorem parseDuration_render (n : Nat) (u : List Char) (m : Rat)
    (hu : unitMult u = some m) :
    parseDuration (String.mk (natRender n ++ u)) = .ok ((n : Rat) * m) := by
  obtain ⟨_, _, huw⟩ := unitMult_chars hu
  have hsplit : stripStr (String.mk (natRender n ++ u)) = natRender n ++ u := by
    refine stripStr_mk_of_no_ws ?_
    intro c hc
    rcases List.mem_append.mp hc with h | h
    · exact natRender_not_ws n c h
    · exact huw c h
  rw [parseDuration_shape _ _ _ _ hsplit (natRender_ne_nil n) (natRender_isDigit n) hu,
    digitsVal_natRender]

/-- Failure cases: when no `digits ++ unit` decomposition of the stripped
    input exists, a non-empty input is rejected. -/
theorem parseDuration_fail {s : String} (hne : s ≠ "")
    (hno : ¬ ∃ ds u, stripStr s = ds ++ u ∧ ds ≠ [] ∧ (∀ c ∈ ds, c.isDigit = true) ∧
      (unitMult u).isSome) :
    parseDuration s = .error (.invalidFormat s) := by
  rw [parseDuration, if_neg hne]
  by_cases hds : (stripStr s).takeWhile Char.isDigit = []
  · simp [hds]
  · rw [if_neg hds]
    cases hu : unitMult ((stripStr s).dropWhile Char.isDigit) with
    | none => rfl
    | some m =>
      exact absurd ⟨_, _, (List.takeWhile_append_dropWhile _ _).symm, hds,
        fun c hc => List.mem_takeWhile_imp hc, hu ▸ rfl⟩ hno

/-! ### Facts about the formatter -/

theorem floor_natCast_div (x k : ℕ) (hk : 0 < k) :
    ⌊(x : ℚ) / (k : ℚ)⌋ = ((x / k : ℕ) : ℤ) := by
  have hk' : (0 : ℚ) < (k : ℚ) := by exact_mod_cast hk
  rw [Int.floor_eq_iff]
  constructor
  · rw [le_div_iff₀ hk']
    exact_mod_cast Nat.div_mul_le_self x k
  · rw [div_lt_iff₀ hk']
    have h1 := Nat.div_add_mod x k
    have h2 := Nat.mod_lt x hk
    have h3 : x < (x / k + 1) * k := by nlinarith [h1, h2]
    exact_mod_cast h3

theorem pyInt_natCast (n : ℕ) : pyInt ((n : ℚ)) = (n : ℤ) := by
  rw [pyInt, if_pos (by exact_mod_cast Nat.zero_le n), ratFloor_eq, Int.floor_natCast]

theorem pyFloorDiv_natCast (x k : ℕ) (hk : 0 < k) :
    pyFloorDiv (x : ℚ) (k : ℚ) = ((x / k : ℕ) : ℚ) := by
  rw [pyFloorDiv, ratFloor_eq, floor_natCast_div x k hk]
  push_cast
  rfl

theorem intRender_natCast (n : ℕ) : intRender (n : ℤ) = natRender n := by
  rw [intRender, if_neg (by omega)]
  simp

/-- Evaluation of `parse ∘ format` on a non-negative whole number of seconds. -/
theorem parse_format_nat (x : ℕ) :
    parseDuration (formatDuration (x : ℚ)) =
      .ok (if x = 0 then 0
           else if x < 60 then (x : ℚ)
           else if x < 3600 then ((x / 60 : ℕ) : ℚ) * 60
           else ((x / 3600 : ℕ) : ℚ) * 3600) := by
  by_cases h0 : x = 0
  · subst h0
    have hlt : ((0 : ℕ) : ℚ) < 1 := by norm_num
    rw [formatDuration, if_pos hlt]
    have e1 : ((0 : ℕ) : ℚ) * 1000 = ((0 : ℕ) : ℚ) := by norm_num
    rw [e1, pyInt_natCast, intRender_natCast, parseDuration_render 0 ['m', 's'] (1/1000) rfl]
    norm_num
  · have hx1 : 1 ≤ x := Nat.one_le_iff_ne_zero.mpr h0
    have hnot1 : ¬ ((x : ℚ) < 1) := by
      rw [not_lt]
      exact_mod_cast hx1
    rw [formatDuration, if_neg hnot1]
    by_cases h60 : x < 60
    · rw [if_pos (by exact_mod_cast h60), pyInt_natCast, intRender_natCast,
        parseDuration_render x ['s'] 1 rfl, if_neg h0, if_pos h60]
      norm_num
    · have hnot60 : ¬ ((x : ℚ) < 60) := by
        rw [not_lt]
        exact_mod_cast not_lt.mp h60
      rw [if_neg hnot60]
      by_cases h3600 : x < 3600
      · rw [if_pos (by exact_mod_cast h3600)]
        have e2 : pyFloorDiv (x : ℚ) 60 = ((x / 60 : ℕ) : ℚ) := by
          have h := pyFloorDiv_natCast x 60 (by norm_num)
          simpa using h
        rw [e2, pyInt_natCast, intRender_natCast,
          parseDuration_render (x / 60) ['m'] 60 rfl, if_neg h0, if_neg h60, if_pos h3600]
      · have hnot3600 : ¬ ((x : ℚ) < 3600) := by
          rw [not_lt]
          exact_mod_cast not_lt.mp h3600
        rw [if_neg hnot3600]
        have e2 : pyFloorDiv (x : ℚ) 3600 = ((x / 3600 : ℕ) : ℚ) := by
          have h := pyFloorDiv_natCast x 3600 (by norm_num)
          simpa using h
        rw [e2, pyInt_natCast, intRender_natCast,
          parseDuration_render (x / 3600) ['h'] 3600 rfl, if_neg h0, if_neg h60, if_neg h3600]

/-- Decidable equality of parser results, so that concrete rejections can be
    settled by `decide` (the accepted branch is never reached there). -/
instance : DecidableEq (Except DurationError Rat) := fun a b =>
  match a, b with
  | .ok x, .ok y => decidable_of_iff (x = y) (by constructor <;> intro h <;> simp_all)
  | .error x, .error y => decidable_of_iff (x = y) (by constructor <;> intro h <;> simp_all)
  | .ok _, .error _ => isFalse (by simp)
  | .error _, .ok _ => isFalse (by simp)

/-! ## Claim theorems for the duration component -/

/-- **C5.** `_parse_duration` returns the integer value times the unit
    multiplier in seconds exactly when the (stripped) input has the shape
    `<integer><unit>` with unit in `{ms, s, m, h}` (`"1s" ↦ 1.0`,
    `"250ms" ↦ 0.25`, `"2h" ↦ 7200.0`), fails with `ValueError`
    (InvalidFormat) on every other non-empty shape (floats, negatives, bare
    numbers, combined units), and returns 1.0 for empty input. -/
theorem c5_parse_duration :
    parseDuration "" = .ok 1
  ∧ parseDuration "1s" = .ok 1
  ∧ parseDuration "250ms" = .ok (1/4)
  ∧ parseDuration "2h" = .ok 7200
  ∧ parseDuration "1.5s" = .error (.invalidFormat "1.5s")
  ∧ parseDuration "-3s" = .error (.invalidFormat "-3s")
  ∧ parseDuration "7" = .error (.invalidFormat "7")
  ∧ parseDuration "1h30m" = .error (.invalidFormat "1h30m")
  ∧ (∀ (s : String) (ds u : List Char) (m : Rat),
      stripStr s = ds ++ u → ds ≠ [] → (∀ c ∈ ds, c.isDigit = true) →
      unitMult u = some m → parseDuration s = .ok ((digitsVal ds : Rat) * m))
  ∧ (∀ s : String, s ≠ "" →
      (¬ ∃ ds u, stripStr s = ds ++ u ∧ ds ≠ [] ∧ (∀ c ∈ ds, c.isDigit = true) ∧
        (unitMult u).isSome) →
      parseDuration s = .error (.invalidFormat s)) := by
  refine ⟨rfl, ?_, ?_, ?_, by decide, by decide, by decide, by decide, ?_, ?_⟩
  · have h := parseDuration_shape "1s" ['1'] ['s'] 1 (by decide) (by decide) (by decide) rfl
    have hv : digitsVal ['1'] = 1 := by decide
    rw [h, hv]
    norm_num
  · have h := parseDuration_shape "250ms" ['2', '5', '0'] ['m', 's'] (1/1000)
      (by decide) (by decide) (by decide) rfl
    have hv : digitsVal ['2', '5', '0'] = 250 := by decide
    rw [h, hv]
    norm_num
  · have h := parseDuration_shape "2h" ['2'] ['h'] 3600 (by decide) (by decide) (by decide) rfl
    have hv : digitsVal ['2'] = 2 := by decide
    rw [h, hv]
    norm_num
  · exact fun s ds u m h1 h2 h3 h4 => parseDuration_shape s ds u m h1 h2 h3 h4
  · exact fun s h1 h2 => parseDuration_fail h1 h2

/-- Witness for C5: the shape branch applied at the concrete input `"3m"`. -/
theorem c5_parse_duration_witness : parseDuration "3m" = .ok 180 := by
  have h := c5_parse_duration.2.2.2.2.2.2.2.2.1 "3m" ['3'] ['m'] 60
    (by decide) (by decide) (by decide) rfl
  have hv : digitsVal ['3'] = 3 := by decide
  rw [h, hv]
  norm_num

/-- **C6.** `_format_duration` picks ms below 1 s, s below 60 s, m below
    3600 s, h otherwise, truncating (integer division, not rounding) on the
    s/m/h branches; consequently for every non-negative integer-second input
    the re-parsed formatted string is the input truncated to the chosen unit,
    hence within one unit-step of the input. -/
theorem c6_format_roundtrip (x : ℕ) :
    (parseDuration (formatDuration (x : ℚ)) =
      .ok (if x = 0 then 0
           else if x < 60 then (x : ℚ)
           else if x < 3600 then ((x / 60 : ℕ) : ℚ) * 60
           else ((x / 3600 : ℕ) : ℚ) * 3600))
  ∧ (∀ r : ℚ, parseDuration (formatDuration (x : ℚ)) = .ok r →
      r ≤ (x : ℚ) ∧ (x : ℚ) - r ≤ formatStep (x : ℚ)) := by
  refine ⟨parse_format_nat x, ?_⟩
  intro r hr
  rw [parse_format_nat x] at hr
  have hr' := Except.ok.inj hr
  subst hr'
  by_cases h0 : x = 0
  · subst h0
    simp [formatStep]
  · rw [if_neg h0]
    have hx1 : 1 ≤ x := Nat.one_le_iff_ne_zero.mpr h0
    have hnot1 : ¬ ((x : ℚ) < 1) := by
      rw [not_lt]
      exact_mod_cast hx1
    by_cases h60 : x < 60
    · rw [if_pos h60, formatStep, if_neg hnot1, if_pos (by exact_mod_cast h60)]
      norm_num
    · have hnot60 : ¬ ((x : ℚ) < 60) := by
        rw [not_lt]
        exact_mod_cast not_lt.mp h60
      rw [if_neg h60]
      by_cases h3600 : x < 3600
      · rw [if_pos h3600, formatStep, if_neg hnot1, if_neg hnot60,
          if_pos (by exact_mod_cast h3600)]
        have hdm := Nat.div_add_mod x 60
        have hm : x % 60 < 60 := Nat.mod_lt x (by omega)
        constructor
        · exact_mod_cast (by omega : (x / 60) * 60 ≤ x)
        · have hq : (x : ℚ) - ((x / 60 : ℕ) : ℚ) * 60 = ((x - (x / 60) * 60 : ℕ) : ℚ) := by
            rw [Nat.cast_sub (by omega)]
            push_cast
            ring
          rw [hq]
          exact_mod_cast (by omega : x - (x / 60) * 60 ≤ 60)
      · have hnot3600 : ¬ ((x : ℚ) < 3600) := by
          rw [not_lt]
          exact_mod_cast not_lt.mp h3600
        rw [if_neg h3600, formatStep, if_neg hnot1, if_neg hnot60, if_neg hnot3600]
        have hdm := Nat.div_add_mod x 3600
        have hm : x % 3600 < 3600 := Nat.mod_lt x (by omega)
        constructor
        · exact_mod_cast (by omega : (x / 3600) * 3600 ≤ x)
        · have hq : (x : ℚ) - ((x / 3600 : ℕ) : ℚ) * 3600 =
              ((x - (x / 3600) * 3600 : ℕ) : ℚ) := by
            rw [Nat.cast_sub (by omega)]
            push_cast
            ring
          rw [hq]
          exact_mod_cast (by omega : x - (x / 3600) * 3600 ≤ 3600)

/-- Witness for C6: the round-trip bound applied at the concrete input 90 s. -/
theorem c6_format_roundtrip_witness :
    parseDuration (formatDuration ((90 : ℕ) : ℚ)) = .ok (((90 / 60 : ℕ) : ℚ) * 60) ∧
      (((90 / 60 : ℕ) : ℚ) * 60 ≤ ((90 : ℕ) : ℚ) ∧
        ((90 : ℕ) : ℚ) - ((90 / 60 : ℕ) : ℚ) * 60 ≤ formatStep ((90 : ℕ) : ℚ)) := by
  have h := c6_format_roundtrip 90
  refine ⟨?_, h.2 _ h.1⟩
  rw [h.1]
  norm_num

/-! ## YAML document model

YAML values are modelled only as far as the code inspects them: a file is
either unparseable, parses to a non-mapping value, or parses to a mapping
carrying the keys the code reads (`uniquekey` section with `NumUniqKey`,
`period`, `Include_sub_modules`).  `or {}` coercions of empty documents are
represented as a mapping with all fields absent. -/

inductive UKSection
  | nonDict
  | dict (numUniqKey : Option Int)
deriving DecidableEq

inductive IncludeSpec
  | one (s : String)
  | many (l : List String)
deriving DecidableEq

structure ConfData where
  uniquekey : Option UKSection
  period : Option String
  includeSubModules : Option IncludeSpec
deriving DecidableEq

inductive YDoc
  | malformed
  | nonMapping
  | mapping (c : ConfData)
deriving DecidableEq

/-! ## EPS calculation engine (src/core/eps_calculator.py)

Reading a configuration file is modelled by its outcome, an
`Except String YDoc`: `.error e` stands for an I/O or YAML-parse failure
raised by `read_module_config` / `read_submodule_config`, `.ok d` for the
loaded document. -/

structure ModuleConfig where
  uniquekey : Int
  period : String
  period_seconds : Rat
  errorMsg : Option String
deriving DecidableEq

/-- The default-valued dict `get_module_config` returns from its `except`
    branch, carrying the error message. -/
def defaultModuleConfig (e : String) : ModuleConfig :=
  { uniquekey := DEFAULT_UNIQUE_KEY, period := "1s", period_seconds := 1, errorMsg := some e }

/-- Model of `EPSCalculator.get_module_config`: the entire body is inside a
    `try`; any failure (read error, non-mapping subscript `TypeError`,
    scalar `uniquekey` `TypeError`, invalid `period`) is caught and replaced
    by the default-valued dict carrying an `error` message. -/
def get_module_config (r : Except String YDoc) : ModuleConfig :=
  match r with
  | .error e => defaultModuleConfig e
  | .ok .malformed => defaultModuleConfig "YAMLError"
  | .ok .nonMapping => defaultModuleConfig "TypeError"
  | .ok (.mapping c) =>
    match c.uniquekey with
    | some .nonDict => defaultModuleConfig "TypeError"
    | uks =>
      let uk : Int := match uks with
        | some (.dict (some v)) => v
        | _ => DEFAULT_UNIQUE_KEY
      let p := c.period.getD "1s"
      match parseDuration p with
      | .ok s => { uniquekey := uk, period := p, period_seconds := s, errorMsg := none }
      | .error _ => defaultModuleConfig "InvalidFormat"

structure SubmoduleConfig where
  uniquekey : Int
  errorMsg : Option String
deriving DecidableEq

/-- Model of `EPSCalculator.get_submodule_config` (same `try`/`except`
    structure as `get_module_config`). -/
def get_submodule_config (r : Except String YDoc) : SubmoduleConfig :=
  match r with
  | .error e => { uniquekey := DEFAULT_UNIQUE_KEY, errorMsg := some e }
  | .ok .malformed => { uniquekey := DEFAULT_UNIQUE_KEY, errorMsg := some "YAMLError" }
  | .ok .nonMapping => { uniquekey := DEFAULT_UNIQUE_KEY, errorMsg := some "TypeError" }
  | .ok (.mapping c) =>
    match c.uniquekey with
    | some .nonDict => { uniquekey := DEFAULT_UNIQUE_KEY, errorMsg := some "TypeError" }
    | some (.dict (some v)) => { uniquekey := v, errorMsg := none }
    | _ => { uniquekey := DEFAULT_UNIQUE_KEY, errorMsg := none }

/-- A submodule `.yml` file of a module directory: its stem and the outcome
    of reading it. -/
structure SubEntry where
  name : String
  read : Except String YDoc

/-- A module as `calculate_eps` sees it: the outcome of reading its
    `conf.yml` and the submodule files enumerated by `get_submodules`
    (every `.yml` except `conf.yml`; the source sorts the names, which
    no property here depends on). -/
structure ModuleData where
  conf : Except String YDoc
  submodules : List SubEntry

structure SubDetail where
  name : String
  uniquekey : Int
  multiplier : Int
  contribution : Int
deriving DecidableEq

structure EpsResult where
  module_uniquekey : Int
  module_period : String
  period_seconds : Rat
  submodules : List SubDetail
  total_submodule_contribution : Int
  eps : Rat
deriving DecidableEq

/-- Effective unique key of one submodule inside the calculation loop:
    override if supplied, else the value from `get_submodule_config`
    (itself defaulted when missing), then replaced by the default when
    `< 1`. -/
def effectiveSubUK (overrides : List (String × Int)) (sub : SubEntry) : Int :=
  let u0 := match overrides.lookup sub.name with
            | some v => v
            | none => (get_submodule_config sub.read).uniquekey
  if u0 < 1 then DEFAULT_UNIQUE_KEY else u0

/-- The submodule loop and final formula of `calculate_eps` (multiplier
    fixed at 1, `period_seconds <= 0` replaced by 1.0 before dividing). -/
def calcCore (m : ModuleData) (overrides : List (String × Int)) (mc : ModuleConfig) : EpsResult :=
  let details := m.submodules.map (fun sub =>
    let uk := effectiveSubUK overrides sub
    ({ name := sub.name, uniquekey := uk, multiplier := 1, contribution := 1 * uk } : SubDetail))
  let total := (details.map (fun d => d.contribution)).sum
  let ps := if mc.period_seconds ≤ 0 then 1 else mc.period_seconds
  { module_uniquekey := mc.uniquekey, module_period := mc.period, period_seconds := ps,
    submodules := details, total_submodule_contribution := total,
    eps := ((mc.uniquekey * total : Int) : Rat) / ps }

/-- Model of `EPSCalculator.calculate_eps`.  Only the parse of an explicit
    `module_period` override can raise out of this function; everything
    else is absorbed by the defaulting reads. -/
def calculate_eps (m : ModuleData) (module_uniquekey : Option Int)
    (module_period : Option String) (submodule_overrides : List (String × Int)) :
    Except DurationError EpsResult :=
  let mc0 := get_module_config m.conf
  let mc1 := match module_uniquekey with
             | some v => { mc0 with uniquekey := v }
             | none => mc0
  match module_period with
  | some p =>
    match parseDuration p with
    | .error e => .error e
    | .ok s => .ok (calcCore m submodule_overrides { mc1 with period := p, period_seconds := s })
  | none => .ok (calcCore m submodule_overrides mc1)

/-- The submodule contribution sum as computed by
    `suggest_uniquekey_for_target_eps` (same defaulting as the
    calculation loop, no overrides). -/
def total_contribution (m : ModuleData) : Int :=
  (m.submodules.map (fun sub => 1 * effectiveSubUK [] sub)).sum

inductive SuggestError
  | invalidFormat (s : String)
  | zeroDivision
deriving DecidableEq

structure Suggestion where
  target_eps : Rat
  suggested_module_uniquekey : Int
  current_module_uniquekey : Int
  period_seconds : Rat
  total_submodule_contribution : Int
  expected_eps : Rat
  tolerance_used : Rat
  within_tolerance : Bool
deriving DecidableEq

inductive SuggestResult
  | noUsableSubmodules
  | suggestion (s : Suggestion)
deriving DecidableEq

/-- Model of `EPSCalculator.suggest_uniquekey_for_target_eps`.
    `noUsableSubmodules` is the `{"error": "No valid submodules...",
    "suggestion": None}` return; `zeroDivision` models the
    `ZeroDivisionError` Python raises when `expected_eps` divides by a
    zero `period_seconds` (reachable only through an explicit `"0s"`-like
    period); an unparseable explicit period raises `InvalidFormat`. -/
def suggest_uniquekey_for_target_eps (m : ModuleData) (target_eps : Rat)
    (period : Option String) (tolerance : Rat) : Except SuggestError SuggestResult :=
  let mc := get_module_config m.conf
  let p := period.getD mc.period
  match parseDuration p with
  | .error _ => .error (.invalidFormat p)
  | .ok period_seconds =>
    let total := total_contribution m
    if total ≤ 0 then .ok .noUsableSubmodules
    else if period_seconds = 0 then .error .zeroDivision
    else
      let required := (target_eps * period_seconds) / (total : Rat)
      let suggested := max 1 (pyRound required)
      let expected := ((suggested * total : Int) : Rat) / period_seconds
      let tolUsed := if 0 < target_eps then |expected - target_eps| / target_eps else 0
      .ok (.suggestion
        { target_eps := target_eps, suggested_module_uniquekey := suggested,
          current_module_uniquekey := mc.uniquekey, period_seconds := period_seconds,
          total_submodule_contribution := total, expected_eps := expected,
          tolerance_used := tolUsed, within_tolerance := decide (tolUsed ≤ tolerance) })

/-- Model of `ClusterManager._calculate_checksum`: any failure opening or
    reading the file is caught, logged and replaced by the empty string. -/
def cm_calculate_checksum (hashFn : YDoc → String) (r : Except String YDoc) : String :=
  match r with
  | .ok c => hashFn c
  | .error _ => ""

/-! ### Helper evaluation lemmas for the EPS engine -/

theorem parse_1s : parseDuration "1s" = .ok 1 := by
  have h := parseDuration_shape "1s" ['1'] ['s'] 1 (by decide) (by decide) (by decide) rfl
  have hv : digitsVal ['1'] = 1 := by decide
  rw [h, hv]
  norm_num

theorem parse_10s : parseDuration "10s" = .ok 10 := by
  have h := parseDuration_shape "10s" ['1', '0'] ['s'] 1 (by decide) (by decide) (by decide) rfl
  have hv : digitsVal ['1', '0'] = 10 := by decide
  rw [h, hv]
  norm_num

theorem pyRound_intCast (z : ℤ) : pyRound ((z : ℚ)) = z := by
  rw [pyRound]
  simp [ratFloor_eq, Int.floor_intCast]

/-- Python `round` returns a nearest integer (ties go to the even one). -/
theorem pyRound_nearest (q : ℚ) : |((pyRound q : ℤ) : ℚ) - q| ≤ 1/2 := by
  have h1 : ((⌊q⌋ : ℤ) : ℚ) ≤ q := Int.floor_le q
  have h2 : q < ((⌊q⌋ : ℤ) : ℚ) + 1 := Int.lt_floor_add_one q
  rw [pyRound]
  simp only [ratFloor_eq]
  split_ifs with ha hb hc <;>
  · rw [abs_le]
    constructor <;> [skip; skip] <;> push_cast <;> linarith

theorem calculate_eps_none (m : ModuleData) :
    calculate_eps m none none [] = .ok (calcCore m [] (get_module_config m.conf)) := rfl

theorem get_module_config_eval (v : Int) (p : String) (inc : Option IncludeSpec) (s : Rat)
    (hps : parseDuration p = .ok s) :
    get_module_config (.ok (.mapping
        { uniquekey := some (.dict (some v)), period := some p, includeSubModules := inc })) =
      { uniquekey := v, period := p, period_seconds := s, errorMsg := none } := by
  simp only [get_module_config, Option.getD_some]
  rw [hps]

/-- Properties of `calculate_eps` with no overrides, for every module. -/
theorem calculate_eps_spec (m : ModuleData) :
    ∃ r : EpsResult,
      calculate_eps m none none [] = .ok r ∧
      r.module_uniquekey = (get_module_config m.conf).uniquekey ∧
      r.total_submodule_contribution =
        (m.submodules.map (fun sub => 1 * effectiveSubUK [] sub)).sum ∧
      0 < r.period_seconds ∧
      (0 < (get_module_config m.conf).period_seconds →
        r.period_seconds = (get_module_config m.conf).period_seconds) ∧
      ((get_module_config m.conf).period_seconds ≤ 0 → r.period_seconds = 1) ∧
      r.eps = ((r.module_uniquekey * r.total_submodule_contribution : Int) : Rat) /
        r.period_seconds := by
  refine ⟨calcCore m [] (get_module_config m.conf), rfl, rfl, ?_, ?_, ?_, ?_, rfl⟩
  · simp only [calcCore, List.map_map]
    rfl
  · simp only [calcCore]
    split_ifs with h
    · norm_num
    · exact lt_of_not_le h
  · intro h
    simp only [calcCore]
    rw [if_neg (not_le.mpr h)]
  · intro h
    simp only [calcCore]
    rw [if_pos h]

/-! ### Concrete example module (module key 5, submodule keys 10/20/30) -/

def mkSubFile (n : String) (v : Int) : SubEntry :=
  { name := n,
    read := .ok (.mapping { uniquekey := some (.dict (some v)), period := none,
                            includeSubModules := none }) }

def exampleModule (p : String) : ModuleData :=
  { conf := .ok (.mapping { uniquekey := some (.dict (some 5)), period := some p,
                            includeSubModules := none }),
    submodules := [mkSubFile "sub_a" 10, mkSubFile "sub_b" 20, mkSubFile "sub_c" 30] }

theorem exampleModule_config (p : String) (s : Rat) (hps : parseDuration p = .ok s) :
    get_module_config (exampleModule p).conf =
      { uniquekey := 5, period := p, period_seconds := s, errorMsg := none } :=
  get_module_config_eval 5 p none s hps

theorem exampleModule_total (p : String) :
    ((exampleModule p).submodules.map (fun sub => 1 * effectiveSubUK [] sub)).sum = 60 := by
  show (([mkSubFile "sub_a" 10, mkSubFile "sub_b" 20, mkSubFile "sub_c" 30] : List SubEntry).map
      (fun sub => 1 * effectiveSubUK [] sub)).sum = 60
  decide

/-! ## Claim theorems for the EPS engine -/

/-- **C2.** `calculate_eps` returns
    `eps = (module_uniquekey * total_submodule_contribution) / period_seconds`
    where every enumerated submodule contributes its `uniquekey.NumUniqKey`
    with multiplier 1 (missing or `< 1` replaced by the default) and
    `period_seconds <= 0` is replaced by 1.0 before dividing; module key 5
    with submodule keys 10/20/30 gives eps 300 at period 1 s and 30 at
    period 10 s. -/
theorem c2_calculate_eps :
    (∀ m : ModuleData,
      ∃ r : EpsResult,
        calculate_eps m none none [] = .ok r ∧
        r.module_uniquekey = (get_module_config m.conf).uniquekey ∧
        r.total_submodule_contribution =
          (m.submodules.map (fun sub => 1 * effectiveSubUK [] sub)).sum ∧
        0 < r.period_seconds ∧
        (0 < (get_module_config m.conf).period_seconds →
          r.period_seconds = (get_module_config m.conf).period_seconds) ∧
        ((get_module_config m.conf).period_seconds ≤ 0 → r.period_seconds = 1) ∧
        r.eps = ((r.module_uniquekey * r.total_submodule_contribution : Int) : Rat) /
          r.period_seconds)
  ∧ (∃ r : EpsResult, calculate_eps (exampleModule "1s") none none [] = .ok r ∧ r.eps = 300)
  ∧ (∃ r : EpsResult, calculate_eps (exampleModule "10s") none none [] = .ok r ∧
        r.eps = 30) := by
  refine ⟨calculate_eps_spec, ?_, ?_⟩
  · obtain ⟨r, h1, h2, h3, _, h5, _, h7⟩ := calculate_eps_spec (exampleModule "1s")
    refine ⟨r, h1, ?_⟩
    rw [exampleModule_config "1s" 1 parse_1s] at h2 h5
    rw [h7, h2, h3, exampleModule_total, h5 (by norm_num)]
    norm_num
  · obtain ⟨r, h1, h2, h3, _, h5, _, h7⟩ := calculate_eps_spec (exampleModule "10s")
    refine ⟨r, h1, ?_⟩
    rw [exampleModule_config "10s" 10 parse_10s] at h2 h5
    rw [h7, h2, h3, exampleModule_total, h5 (by norm_num)]
    norm_num

/-- Witness for C2: the general clause applied at the concrete example
    module with period 1 s, all hypotheses discharged there. -/
theorem c2_calculate_eps_witness :
    ∃ r : EpsResult,
      calculate_eps (exampleModule "1s") none none [] = .ok r ∧
      r.period_seconds = 1 ∧ r.eps = 300 := by
  obtain ⟨r, h1, h2, h3, _, h5, _, h7⟩ := c2_calculate_eps.1 (exampleModule "1s")
  rw [exampleModule_config "1s" 1 parse_1s] at h2 h5
  have hps := h5 (by norm_num)
  refine ⟨r, h1, hps, ?_⟩
  rw [h7, h2, h3, exampleModule_total, hps]
  norm_num

/-- Unfolding of `suggest_uniquekey_for_target_eps` with an explicit,
    parseable, non-zero period and a positive contribution total. -/
theorem suggest_eval (m : ModuleData) (t ps tol : ℚ) (p : String)
    (hp : parseDuration p = .ok ps) (htot : 0 < total_contribution m) (hz : ps ≠ 0) :
    suggest_uniquekey_for_target_eps m t (some p) tol =
      .ok (.suggestion
        { target_eps := t,
          suggested_module_uniquekey :=
            max 1 (pyRound ((t * ps) / ((total_contribution m : Int) : ℚ))),
          current_module_uniquekey := (get_module_config m.conf).uniquekey,
          period_seconds := ps,
          total_submodule_contribution := total_contribution m,
          expected_eps :=
            ((max 1 (pyRound ((t * ps) / ((total_contribution m : Int) : ℚ))) *
                total_contribution m : Int) : ℚ) / ps,
          tolerance_used :=
            (if 0 < t then
              |((max 1 (pyRound ((t * ps) / ((total_contribution m : Int) : ℚ))) *
                  total_contribution m : Int) : ℚ) / ps - t| / t
             else 0),
          within_tolerance :=
            decide ((if 0 < t then
              |((max 1 (pyRound ((t * ps) / ((total_contribution m : Int) : ℚ))) *
                  total_contribution m : Int) : ℚ) / ps - t| / t
             else 0) ≤ tol) }) := by
  rw [suggest_uniquekey_for_target_eps]
  simp only [Option.getD_some]
  rw [hp]
  simp only [if_neg (not_le.mpr htot), if_neg hz]

/-- The `total <= 0` early return. -/
theorem suggest_noUsable (m : ModuleData) (t tol ps : ℚ) (p : String)
    (hp : parseDuration p = .ok ps) (htot : total_contribution m ≤ 0) :
    suggest_uniquekey_for_target_eps m t (some p) tol = .ok .noUsableSubmodules := by
  rw [suggest_uniquekey_for_target_eps]
  simp only [Option.getD_some]
  rw [hp]
  simp only [if_pos htot]

/-- **C4.** `suggest_uniquekey_for_target_eps` computes
    `required = (target_eps * period_seconds) / total_submodule_contribution`,
    rounds it to a nearest integer floored at 1, recomputes `expected_eps`
    from the suggestion, reports `within_tolerance` exactly when
    `|expected_eps - target_eps| / target_eps <= tolerance`, and returns the
    NoUsableSubmodules outcome when the contribution total is `<= 0`;
    target 300 at period 1 s over submodule sum 60 suggests key 5 within
    tolerance. -/
theorem c4_suggest_uniquekey (m : ModuleData) (t ps tol : ℚ) (p : String)
    (hp : parseDuration p = .ok ps) (hps : 0 < ps) (ht : 0 < t) :
    (total_contribution m ≤ 0 →
      suggest_uniquekey_for_target_eps m t (some p) tol = .ok .noUsableSubmodules)
  ∧ (0 < total_contribution m →
      ∃ s : Suggestion,
        suggest_uniquekey_for_target_eps m t (some p) tol = .ok (.suggestion s) ∧
        s.suggested_module_uniquekey =
          max 1 (pyRound ((t * ps) / ((total_contribution m : Int) : ℚ))) ∧
        |((pyRound ((t * ps) / ((total_contribution m : Int) : ℚ)) : ℤ) : ℚ) -
            (t * ps) / ((total_contribution m : Int) : ℚ)| ≤ 1/2 ∧
        s.expected_eps =
          ((s.suggested_module_uniquekey * total_contribution m : Int) : ℚ) / ps ∧
        (s.within_tolerance = true ↔ |s.expected_eps - t| / t ≤ tol))
  ∧ (∃ s : Suggestion,
      suggest_uniquekey_for_target_eps (exampleModule "1s") 300 (some "1s") (1/20) =
        .ok (.suggestion s) ∧
      s.suggested_module_uniquekey = 5 ∧ s.within_tolerance = true) := by
  have htot60 : total_contribution (exampleModule "1s") = 60 := by decide
  refine ⟨fun htot => suggest_noUsable m t tol ps p hp htot, fun htot => ?_, ?_⟩
  · refine ⟨_, suggest_eval m t ps tol p hp htot (ne_of_gt hps), rfl, pyRound_nearest _,
      rfl, ?_⟩
    dsimp only
    rw [if_pos ht]
    exact decide_eq_true_iff
  · have harg : ((300 : ℚ) * 1) / ((total_contribution (exampleModule "1s") : Int) : ℚ) =
        ((5 : ℤ) : ℚ) := by
      rw [htot60]
      norm_num
    refine ⟨_, suggest_eval (exampleModule "1s") 300 1 (1/20) "1s" parse_1s
      (by rw [htot60]; norm_num) (by norm_num), ?_, ?_⟩
    · dsimp only
      rw [harg, pyRound_intCast]
      decide
    · dsimp only
      rw [harg, pyRound_intCast, htot60]
      have h5 : max (1 : ℤ) 5 = 5 := by decide
      rw [h5, if_pos (by norm_num : (0:ℚ) < 300)]
      rw [decide_eq_true_eq]
      norm_num

/-- Witness for C4: the theorem applied at the concrete example module,
    target 300, period "1s", tolerance 1/20. -/
theorem c4_suggest_uniquekey_witness :
    ∃ s : Suggestion,
      suggest_uniquekey_for_target_eps (exampleModule "1s") 300 (some "1s") (1/20) =
        .ok (.suggestion s) ∧
      s.suggested_module_uniquekey = 5 ∧ s.within_tolerance = true :=
  (c4_suggest_uniquekey (exampleModule "1s") 300 1 (1/20) "1s" parse_1s (by norm_num)
    (by norm_num)).2.2

/-- **C9 (counterexample).** The claim says module/submodule read failures
    used by the EPS calculation, and checksum failures, propagate as typed
    failures rather than being replaced by default-valued results.  At the
    concrete failing read `.error "IOError"` the code instead returns the
    default-valued config (`uniquekey = DEFAULT_UNIQUE_KEY`, period 1 s),
    `calculate_eps` succeeds with an EPS computed entirely from defaults,
    and the cluster checksum routine returns the empty string. -/
theorem c9_counterexample :
    get_module_config (.error "IOError") =
      { uniquekey := DEFAULT_UNIQUE_KEY, period := "1s", period_seconds := 1,
        errorMsg := some "IOError" }
  ∧ get_submodule_config (.error "IOError") =
      { uniquekey := DEFAULT_UNIQUE_KEY, errorMsg := some "IOError" }
  ∧ (∃ r : EpsResult,
      calculate_eps { conf := .error "IOError",
                      submodules := [{ name := "s1", read := .error "IOError" }] }
        none none [] = .ok r ∧
      r.module_uniquekey = DEFAULT_UNIQUE_KEY ∧ r.period_seconds = 1 ∧ r.eps = 1)
  ∧ cm_calculate_checksum (fun _ => "somehash") (.error "FileNotFoundError") = "" := by
  refine ⟨rfl, rfl, ?_, rfl⟩
  refine ⟨_, calculate_eps_none _, rfl, ?_, ?_⟩
  · show (if (1 : ℚ) ≤ 0 then 1 else 1) = 1
    norm_num
  · show ((DEFAULT_UNIQUE_KEY * (1 * DEFAULT_UNIQUE_KEY + 0) : Int) : ℚ) /
        (if (1 : ℚ) ≤ 0 then 1 else 1) = 1
    rw [DEFAULT_UNIQUE_KEY]
    norm_num

/-- **C9 (amended).** In `eps_calculator.get_module_config` /
    `get_submodule_config` every read, parse or access failure is caught
    and replaced by the default-valued result carrying the error message,
    and `cluster_manager._calculate_checksum` replaces any failure by the
    empty string (success returns the hash of the content). -/
theorem c9_failures_defaulted :
    (∀ e : String, get_module_config (.error e) =
      { uniquekey := DEFAULT_UNIQUE_KEY, period := "1s", period_seconds := 1,
        errorMsg := some e })
  ∧ (∀ e : String, get_submodule_config (.error e) =
      { uniquekey := DEFAULT_UNIQUE_KEY, errorMsg := some e })
  ∧ (∀ (hashFn : YDoc → String) (e : String), cm_calculate_checksum hashFn (.error e) = "")
  ∧ (∀ (hashFn : YDoc → String) (c : YDoc), cm_calculate_checksum hashFn (.ok c) = hashFn c) :=
  ⟨fun _ => rfl, fun _ => rfl, fun _ _ => rfl, fun _ _ => rfl⟩

/-! ## Checksum-guarded file store (src/core/yaml_editor.py)

The local file system is an association list from path to document.
Write operations additionally return the list of file-system events they
performed, so "performs no further action" claims are directly statable.
The content hash (`hashlib.md5`) and the possibility of `yaml.dump` or
`Path.replace` raising are supplied through an environment of oracles. -/

abbrev FS := List (String × YDoc)

def lookupFS : FS → String → Option YDoc
  | [], _ => none
  | (q, c) :: rest, p => if q = p then some c else lookupFS rest p

def setFS : FS → String → YDoc → FS
  | [], p, c => [(p, c)]
  | (q, d) :: rest, p, c => if q = p then (p, c) :: rest else (q, d) :: setFS rest p c

def removeFS : FS → String → FS
  | [], _ => []
  | (q, d) :: rest, p => if q = p then removeFS rest p else (q, d) :: removeFS rest p

theorem lookupFS_setFS_self (fs : FS) (p : String) (c : YDoc) :
    lookupFS (setFS fs p c) p = some c := by
  induction fs with
  | nil => simp [setFS, lookupFS]
  | cons e rest ih =>
    obtain ⟨q, d⟩ := e
    by_cases h : q = p
    · simp [setFS, h, lookupFS]
    · simp [setFS, h, lookupFS, ih]

theorem lookupFS_setFS_ne (fs : FS) (p q : String) (c : YDoc) (h : q ≠ p) :
    lookupFS (setFS fs p c) q = lookupFS fs q := by
  induction fs with
  | nil => simp [setFS, lookupFS, Ne.symm h]
  | cons e rest ih =>
    obtain ⟨a, d⟩ := e
    by_cases ha : a = p
    · subst ha
      simp [setFS, lookupFS, Ne.symm h]
    · simp [setFS, ha, lookupFS, ih]

theorem lookupFS_removeFS_self (fs : FS) (p : String) :
    lookupFS (removeFS fs p) p = none := by
  induction fs with
  | nil => simp [removeFS, lookupFS]
  | cons e rest ih =>
    obtain ⟨q, d⟩ := e
    by_cases h : q = p
    · simp [removeFS, h, ih]
    · simp [removeFS, h, lookupFS, ih]

theorem lookupFS_removeFS_ne (fs : FS) (p q : String) (h : q ≠ p) :
    lookupFS (removeFS fs p) q = lookupFS fs q := by
  induction fs with
  | nil => simp [removeFS]
  | cons e rest ih =>
    obtain ⟨a, d⟩ := e
    by_cases ha : a = p
    · subst ha
      simp [removeFS, lookupFS, Ne.symm h, ih]
    · simp [removeFS, ha, lookupFS, ih]

inductive FEvent
  | readF (p : String)
  | backup (src dst : String)
  | writeTemp (p : String)
  | rename (src dst : String)
  | unlink (p : String)
deriving DecidableEq

inductive EditError
  | notFound
  | yamlError
  | concurrentModification
  | outOfRange
  | typeError
  | writeFailed
deriving DecidableEq

structure WriteOk where
  new_checksum : String
  backup_path : String
deriving DecidableEq

structure EditorEnv where
  hashFn : YDoc → String
  dumpOk : Bool
  renameOk : Bool

/-- Common body of `write_main_config` / `write_module_config` /
    `write_submodule_config` (they differ only in path construction):
    recompute the checksum of `p` (raising `FileNotFoundError` when it does
    not exist), compare it with the caller-supplied checksum, back the file
    up, serialize to the `.tmp` sibling and atomically rename it over the
    target; a failing `yaml.dump` leaves a partial temp file that the
    `except` branch unlinks, and a failing rename is cleaned up the same
    way. -/
def writeConfigFile (env : EditorEnv) (p bp tp : String) (data : ConfData)
    (original_checksum : String) (fs : FS) :
    Except EditError WriteOk × FS × List FEvent :=
  match lookupFS fs p with
  | none => (.error .notFound, fs, [.readF p])
  | some cur =>
    if env.hashFn cur ≠ original_checksum then
      (.error .concurrentModification, fs, [.readF p])
    else
      let fs1 := setFS fs bp cur
      if env.dumpOk then
        let c := YDoc.mapping data
        if env.renameOk then
          (.ok { new_checksum := env.hashFn c, backup_path := bp },
            setFS (removeFS (setFS fs1 tp c) tp) p c,
            [.readF p, .backup p bp, .writeTemp tp, .rename tp p, .readF p])
        else
          (.error .writeFailed, removeFS (setFS fs1 tp c) tp,
            [.readF p, .backup p bp, .writeTemp tp, .unlink tp])
      else
        (.error .writeFailed, removeFS (setFS fs1 tp .malformed) tp,
          [.readF p, .backup p bp, .writeTemp tp, .unlink tp])

/-! ### Path construction (src/core/config.py + yaml_editor.py) -/

def CONF_D_DIR : String := "conf.d"

def BACKUPS_DIR : String := "backups"

def mainConfigPath : String := CONF_D_DIR ++ "/conf.yml"

def mainConfigTmp : String := CONF_D_DIR ++ "/conf.tmp"

def mainConfigBak (ts : String) : String := BACKUPS_DIR ++ "/conf.yml.bak." ++ ts

def modulePath (m : String) : String := CONF_D_DIR ++ "/" ++ m ++ "/conf.yml"

def moduleTmp (m : String) : String := CONF_D_DIR ++ "/" ++ m ++ "/conf.tmp"

def moduleBak (ts : String) : String := BACKUPS_DIR ++ "/conf.yml.bak." ++ ts

def submodulePath (m s : String) : String := CONF_D_DIR ++ "/" ++ m ++ "/" ++ s ++ ".yml"

def submoduleTmp (m s : String) : String := CONF_D_DIR ++ "/" ++ m ++ "/" ++ s ++ ".tmp"

def submoduleBak (s ts : String) : String := BACKUPS_DIR ++ "/" ++ s ++ ".yml.bak." ++ ts

def write_main_config (env : EditorEnv) (ts : String) (data : ConfData)
    (original_checksum : String) (fs : FS) : Except EditError WriteOk × FS × List FEvent :=
  writeConfigFile env mainConfigPath (mainConfigBak ts) mainConfigTmp data original_checksum fs

def write_module_config (env : EditorEnv) (ts m : String) (data : ConfData)
    (original_checksum : String) (fs : FS) : Except EditError WriteOk × FS × List FEvent :=
  writeConfigFile env (modulePath m) (moduleBak ts) (moduleTmp m) data original_checksum fs

def write_submodule_config (env : EditorEnv) (ts m s : String) (data : ConfData)
    (original_checksum : String) (fs : FS) : Except EditError WriteOk × FS × List FEvent :=
  writeConfigFile env (submodulePath m s) (submoduleBak s ts) (submoduleTmp m s) data
    original_checksum fs

/-- Common body of the `read_*_config` operations: missing file raises
    `FileNotFoundError`, an unparseable file re-raises the YAML error,
    otherwise the parsed document and the file checksum are returned. -/
def read_config_file (env : EditorEnv) (p : String) (fs : FS) :
    Except EditError (YDoc × String) :=
  match lookupFS fs p with
  | none => .error .notFound
  | some .malformed => .error .yamlError
  | some c => .ok (c, env.hashFn c)

def read_module_config (env : EditorEnv) (m : String) (fs : FS) :
    Except EditError (YDoc × String) :=
  read_config_file env (modulePath m) fs

def read_submodule_config (env : EditorEnv) (m s : String) (fs : FS) :
    Except EditError (YDoc × String) :=
  read_config_file env (submodulePath m s) fs

/-- Common body of `update_module_uniquekey` / `update_submodule_uniquekey`
    (the two source functions are textually identical up to path
    construction): bound check before anything else, then read,
    fresh-checksum comparison, mutation of the `uniquekey` section
    (`TypeError` when the document is not a mapping or the section is a
    non-mapping scalar) and write-back through the checksum-guarded
    write. -/
def update_uniquekey_file (env : EditorEnv) (p bp tp : String) (v : Int)
    (original_checksum : String) (fs : FS) : Except EditError WriteOk × FS × List FEvent :=
  if v < 1 ∨ MAX_UNIQUE_KEY < v then (.error .outOfRange, fs, [])
  else
    match read_config_file env p fs with
    | .error e => (.error e, fs, [.readF p])
    | .ok (d, current) =>
      if current ≠ original_checksum then
        (.error .concurrentModification, fs, [.readF p])
      else
        match d with
        | .mapping c =>
          match c.uniquekey with
          | some .nonDict => (.error .typeError, fs, [.readF p])
          | _ =>
            let res := writeConfigFile env p bp tp
              { c with uniquekey := some (.dict (some v)) } original_checksum fs
            (res.1, res.2.1, .readF p :: res.2.2)
        | _ => (.error .typeError, fs, [.readF p])

/-- Model of `SafeYAMLEditor.update_module_uniquekey`. -/
def update_module_uniquekey (env : EditorEnv) (ts m : String) (v : Int)
    (original_checksum : String) (fs : FS) : Except EditError WriteOk × FS × List FEvent :=
  update_uniquekey_file env (modulePath m) (moduleBak ts) (moduleTmp m) v original_checksum fs

/-- Model of `SafeYAMLEditor.update_submodule_uniquekey`. -/
def update_submodule_uniquekey (env : EditorEnv) (ts m s : String) (v : Int)
    (original_checksum : String) (fs : FS) : Except EditError WriteOk × FS × List FEvent :=
  update_uniquekey_file env (submodulePath m s) (submoduleBak s ts) (submoduleTmp m s) v
    original_checksum fs

/-! ### Path disjointness -/

theorem string_append_right_ne (a x y : String) (h : x.data ≠ y.data) : a ++ x ≠ a ++ y := by
  intro he
  apply h
  have hd := congrArg String.data he
  rw [String.data_append, String.data_append] at hd
  exact List.append_cancel_left hd

theorem string_head_ne (x y : String) (c d : Char) (cs ds : List Char)
    (hx : x.data = c :: cs) (hy : y.data = d :: ds) (h : c ≠ d) : x ≠ y := by
  intro he
  apply h
  have hd := congrArg String.data he
  rw [hx, hy] at hd
  exact (List.cons.inj hd).1

theorem data_append_head (a : String) (c : Char) (cs : List Char) (h : a.data = c :: cs)
    (b : String) : (a ++ b).data = c :: (cs ++ b.data) := by
  rw [String.data_append, h]
  rfl

theorem mainConfigTmp_ne : mainConfigTmp ≠ mainConfigPath :=
  string_append_right_ne CONF_D_DIR "/conf.tmp" "/conf.yml" (by decide)

theorem mainConfigBak_ne (ts : String) : mainConfigBak ts ≠ mainConfigPath :=
  string_head_ne _ _ 'b' 'c' _ _
    (data_append_head (BACKUPS_DIR ++ "/conf.yml.bak.") 'b' _ rfl ts)
    (data_append_head CONF_D_DIR 'c' _ rfl "/conf.yml")
    (by decide)

theorem moduleTmp_ne (m : String) : moduleTmp m ≠ modulePath m :=
  string_append_right_ne (CONF_D_DIR ++ "/" ++ m) "/conf.tmp" "/conf.yml" (by decide)

theorem moduleBak_ne (ts m : String) : moduleBak ts ≠ modulePath m :=
  string_head_ne _ _ 'b' 'c' _ _
    (data_append_head (BACKUPS_DIR ++ "/conf.yml.bak.") 'b' _ rfl ts)
    (data_append_head (CONF_D_DIR ++ "/" ++ m) 'c' _
      (data_append_head (CONF_D_DIR ++ "/") 'c' _ rfl m) "/conf.yml")
    (by decide)

theorem submoduleTmp_ne (m s : String) : submoduleTmp m s ≠ submodulePath m s :=
  string_append_right_ne (CONF_D_DIR ++ "/" ++ m ++ "/" ++ s) ".tmp" ".yml" (by decide)

theorem submoduleBak_ne (s ts m : String) : submoduleBak s ts ≠ submodulePath m s :=
  string_head_ne _ _ 'b' 'c' _ _
    (data_append_head (BACKUPS_DIR ++ "/") 'b' _ rfl (s ++ ".yml.bak." ++ ts))
    (data_append_head (CONF_D_DIR ++ "/" ++ m ++ "/" ++ s) 'c' _
      (data_append_head (CONF_D_DIR ++ "/" ++ m ++ "/") 'c' _
        (data_append_head (CONF_D_DIR ++ "/" ++ m) 'c' _
          (data_append_head (CONF_D_DIR ++ "/") 'c' _ rfl m) "/") s) ".yml")
    (by decide)

/-! ### Core write-path lemmas -/

/-- Stale checksum: the write fails with the conflict error and returns
    the file system unchanged, having only read the target. -/
theorem writeConfigFile_cas (env : EditorEnv) (p bp tp : String) (data : ConfData)
    (ck : String) (fs : FS) (cur : YDoc)
    (hcur : lookupFS fs p = some cur) (hne : env.hashFn cur ≠ ck) :
    writeConfigFile env p bp tp data ck fs =
      (.error .concurrentModification, fs, [.readF p]) := by
  rw [writeConfigFile, hcur]
  simp only [if_pos hne]

theorem writeConfigFile_dump_fail (env : EditorEnv) (p bp tp : String) (data : ConfData)
    (ck : String) (fs : FS) (cur : YDoc)
    (hcur : lookupFS fs p = some cur) (hck : ¬ env.hashFn cur ≠ ck)
    (hdump : env.dumpOk = false) :
    writeConfigFile env p bp tp data ck fs =
      (.error .writeFailed, removeFS (setFS (setFS fs bp cur) tp .malformed) tp,
        [.readF p, .backup p bp, .writeTemp tp, .unlink tp]) := by
  rw [writeConfigFile, hcur]
  simp [if_neg hck, hdump]

theorem writeConfigFile_rename_fail (env : EditorEnv) (p bp tp : String) (data : ConfData)
    (ck : String) (fs : FS) (cur : YDoc)
    (hcur : lookupFS fs p = some cur) (hck : ¬ env.hashFn cur ≠ ck)
    (hdump : env.dumpOk = true) (hren : env.renameOk = false) :
    writeConfigFile env p bp tp data ck fs =
      (.error .writeFailed, removeFS (setFS (setFS fs bp cur) tp (.mapping data)) tp,
        [.readF p, .backup p bp, .writeTemp tp, .unlink tp]) := by
  rw [writeConfigFile, hcur]
  simp [if_neg hck, hdump, hren]

theorem writeConfigFile_ok (env : EditorEnv) (p bp tp : String) (data : ConfData)
    (ck : String) (fs : FS) (cur : YDoc)
    (hcur : lookupFS fs p = some cur) (hck : ¬ env.hashFn cur ≠ ck)
    (hdump : env.dumpOk = true) (hren : env.renameOk = true) :
    writeConfigFile env p bp tp data ck fs =
      (.ok { new_checksum := env.hashFn (.mapping data), backup_path := bp },
        setFS (removeFS (setFS (setFS fs bp cur) tp (.mapping data)) tp) p (.mapping data),
        [.readF p, .backup p bp, .writeTemp tp, .rename tp p, .readF p]) := by
  rw [writeConfigFile, hcur]
  simp [if_neg hck, hdump, hren]

/-- A `writeFailed` outcome (failing serialization or rename) leaves the
    target entry untouched and the temp entry absent. -/
theorem writeConfigFile_fail_atomic (env : EditorEnv) (p bp tp : String) (data : ConfData)
    (ck : String) (fs : FS) (hbp : bp ≠ p) (htp : tp ≠ p) :
    (writeConfigFile env p bp tp data ck fs).1 = .error .writeFailed →
      lookupFS (writeConfigFile env p bp tp data ck fs).2.1 p = lookupFS fs p ∧
      lookupFS (writeConfigFile env p bp tp data ck fs).2.1 tp = none := by
  intro hres
  cases hcur : lookupFS fs p with
  | none =>
    rw [writeConfigFile, hcur] at hres
    exact absurd hres (by simp)
  | some cur =>
    by_cases hck : env.hashFn cur ≠ ck
    · rw [writeConfigFile_cas env p bp tp data ck fs cur hcur hck] at hres
      exact absurd hres (by simp)
    · cases hdump : env.dumpOk with
      | false =>
        rw [writeConfigFile_dump_fail env p bp tp data ck fs cur hcur hck hdump]
        refine ⟨?_, lookupFS_removeFS_self _ _⟩
        rw [lookupFS_removeFS_ne _ _ _ (Ne.symm htp), lookupFS_setFS_ne _ _ _ _ (Ne.symm htp),
          lookupFS_setFS_ne _ _ _ _ (Ne.symm hbp)]
        exact hcur
      | true =>
        cases hren : env.renameOk with
        | true =>
          rw [writeConfigFile_ok env p bp tp data ck fs cur hcur hck hdump hren] at hres
          exact absurd hres (by simp)
        | false =>
          rw [writeConfigFile_rename_fail env p bp tp data ck fs cur hcur hck hdump hren]
          refine ⟨?_, lookupFS_removeFS_self _ _⟩
          rw [lookupFS_removeFS_ne _ _ _ (Ne.symm htp), lookupFS_setFS_ne _ _ _ _ (Ne.symm htp),
            lookupFS_setFS_ne _ _ _ _ (Ne.symm hbp)]
          exact hcur

theorem read_config_file_error (env : EditorEnv) (p : String) (fs : FS) (e : EditError)
    (h : read_config_file env p fs = .error e) : e = .notFound ∨ e = .yamlError := by
  rw [read_config_file] at h
  cases hl : lookupFS fs p <;> rw [hl] at h
  · exact Or.inl (Except.error.inj h).symm
  · rename_i c
    cases c <;> simp_all

theorem writeConfigFile_error_cases (env : EditorEnv) (p bp tp : String) (data : ConfData)
    (ck : String) (fs : FS) (e : EditError)
    (h : (writeConfigFile env p bp tp data ck fs).1 = .error e) :
    e = .notFound ∨ e = .concurrentModification ∨ e = .writeFailed := by
  cases hl : lookupFS fs p with
  | none =>
    rw [writeConfigFile, hl] at h
    simp at h
    exact Or.inl h.symm
  | some cur =>
    by_cases hck : env.hashFn cur ≠ ck
    · rw [writeConfigFile_cas env p bp tp data ck fs cur hl hck] at h
      simp at h
      exact Or.inr (Or.inl h.symm)
    · cases hdump : env.dumpOk with
      | false =>
        rw [writeConfigFile_dump_fail env p bp tp data ck fs cur hl hck hdump] at h
        simp at h
        exact Or.inr (Or.inr h.symm)
      | true =>
        cases hren : env.renameOk with
        | false =>
          rw [writeConfigFile_rename_fail env p bp tp data ck fs cur hl hck hdump hren] at h
          simp at h
          exact Or.inr (Or.inr h.symm)
        | true =>
          rw [writeConfigFile_ok env p bp tp data ck fs cur hl hck hdump hren] at h
          simp at h

/-- The out-of-range early return: nothing is read, backed up or written. -/
theorem update_uniquekey_file_outOfRange (env : EditorEnv) (p bp tp : String) (v : Int)
    (ck : String) (fs : FS) (h : v < 1 ∨ MAX_UNIQUE_KEY < v) :
    update_uniquekey_file env p bp tp v ck fs = (.error .outOfRange, fs, []) := by
  rw [update_uniquekey_file, if_pos h]

/-- Conversely, an in-range value never produces the out-of-range error. -/
theorem update_uniquekey_file_inRange (env : EditorEnv) (p bp tp : String) (v : Int)
    (ck : String) (fs : FS) (h : ¬ (v < 1 ∨ MAX_UNIQUE_KEY < v)) :
    (update_uniquekey_file env p bp tp v ck fs).1 ≠ .error .outOfRange := by
  intro hres
  rw [update_uniquekey_file, if_neg h] at hres
  cases hread : read_config_file env p fs with
  | error e =>
    rw [hread] at hres
    simp at hres
    rcases read_config_file_error env p fs e hread with rfl | rfl <;> simp_all
  | ok pair =>
    obtain ⟨d, current⟩ := pair
    rw [hread] at hres
    dsimp only at hres
    by_cases hcur : current ≠ ck
    · rw [if_pos hcur] at hres
      simp at hres
    · rw [if_neg hcur] at hres
      cases d with
      | malformed => simp at hres
      | nonMapping => simp at hres
      | mapping c =>
        cases huk : c.uniquekey with
        | none =>
          simp only [huk] at hres
          rcases writeConfigFile_error_cases env p bp tp _ ck fs _ hres with h1 | h1 | h1 <;>
            simp_all
        | some uk =>
          cases uk with
          | nonDict => simp [huk] at hres
          | dict o =>
            simp only [huk] at hres
            rcases writeConfigFile_error_cases env p bp tp _ ck fs _ hres with h1 | h1 | h1 <;>
              simp_all

/-- With an existing mapping document, a matching checksum and working
    dump/rename oracles, the mutation succeeds. -/
theorem update_uniquekey_file_ok (env : EditorEnv) (p bp tp : String) (v : Int)
    (ck : String) (fs : FS) (c : ConfData)
    (hrange : ¬ (v < 1 ∨ MAX_UNIQUE_KEY < v))
    (hlook : lookupFS fs p = some (.mapping c)) (hnd : c.uniquekey ≠ some .nonDict)
    (hck : env.hashFn (.mapping c) = ck) (hdump : env.dumpOk = true)
    (hren : env.renameOk = true) :
    (update_uniquekey_file env p bp tp v ck fs).1 =
      .ok { new_checksum :=
              env.hashFn (.mapping { c with uniquekey := some (.dict (some v)) }),
            backup_path := bp } := by
  have hread : read_config_file env p fs = .ok (.mapping c, env.hashFn (.mapping c)) := by
    rw [read_config_file, hlook]
  rw [update_uniquekey_file, if_neg hrange, hread]
  have hne : ¬ (env.hashFn (.mapping c) ≠ ck) := fun hx => hx hck
  dsimp only
  rw [if_neg hne]
  have hwrite := writeConfigFile_ok env p bp tp
    { c with uniquekey := some (.dict (some v)) } ck fs (.mapping c) hlook
    (by rw [hck]; simp) hdump hren
  cases huk : c.uniquekey with
  | none => simp only [huk] at hwrite ⊢; rw [hwrite]
  | some uk =>
    cases uk with
    | nonDict => exact absurd huk hnd
    | dict o => simp only [huk] at hwrite ⊢; rw [hwrite]

/-! ## Claim theorems for the checksum-guarded file store -/

/-- **C1.** For each checksum-guarded write (`write_main_config`,
    `write_module_config`, `write_submodule_config`): when the current
    on-disk checksum differs from the caller-supplied one the write fails
    with the concurrent-modification error having performed nothing but the
    checksum read — the file system (hence the target, any backup and any
    temp file) is exactly as before; and any serialization or rename
    failure (`writeFailed`) leaves the target entry untouched and the temp
    file absent. -/
theorem c1_checksum_guarded_writes (env : EditorEnv) (ts m s : String) (data : ConfData)
    (ck : String) (fs : FS) :
    ((∀ cur, lookupFS fs mainConfigPath = some cur → env.hashFn cur ≠ ck →
        write_main_config env ts data ck fs =
          (.error .concurrentModification, fs, [.readF mainConfigPath]))
      ∧ ((write_main_config env ts data ck fs).1 = .error .writeFailed →
          lookupFS (write_main_config env ts data ck fs).2.1 mainConfigPath =
            lookupFS fs mainConfigPath ∧
          lookupFS (write_main_config env ts data ck fs).2.1 mainConfigTmp = none))
  ∧ ((∀ cur, lookupFS fs (modulePath m) = some cur → env.hashFn cur ≠ ck →
        write_module_config env ts m data ck fs =
          (.error .concurrentModification, fs, [.readF (modulePath m)]))
      ∧ ((write_module_config env ts m data ck fs).1 = .error .writeFailed →
          lookupFS (write_module_config env ts m data ck fs).2.1 (modulePath m) =
            lookupFS fs (modulePath m) ∧
          lookupFS (write_module_config env ts m data ck fs).2.1 (moduleTmp m) = none))
  ∧ ((∀ cur, lookupFS fs (submodulePath m s) = some cur → env.hashFn cur ≠ ck →
        write_submodule_config env ts m s data ck fs =
          (.error .concurrentModification, fs, [.readF (submodulePath m s)]))
      ∧ ((write_submodule_config env ts m s data ck fs).1 = .error .writeFailed →
          lookupFS (write_submodule_config env ts m s data ck fs).2.1 (submodulePath m s) =
            lookupFS fs (submodulePath m s) ∧
          lookupFS (write_submodule_config env ts m s data ck fs).2.1 (submoduleTmp m s) =
            none)) := by
  refine ⟨⟨?_, ?_⟩, ⟨?_, ?_⟩, ⟨?_, ?_⟩⟩
  · exact fun cur hcur hne =>
      writeConfigFile_cas env mainConfigPath (mainConfigBak ts) mainConfigTmp data ck fs cur
        hcur hne
  · exact writeConfigFile_fail_atomic env mainConfigPath (mainConfigBak ts) mainConfigTmp data
      ck fs (mainConfigBak_ne ts) mainConfigTmp_ne
  · exact fun cur hcur hne =>
      writeConfigFile_cas env (modulePath m) (moduleBak ts) (moduleTmp m) data ck fs cur
        hcur hne
  · exact writeConfigFile_fail_atomic env (modulePath m) (moduleBak ts) (moduleTmp m) data
      ck fs (moduleBak_ne ts m) (moduleTmp_ne m)
  · exact fun cur hcur hne =>
      writeConfigFile_cas env (submodulePath m s) (submoduleBak s ts) (submoduleTmp m s) data
        ck fs cur hcur hne
  · exact writeConfigFile_fail_atomic env (submodulePath m s) (submoduleBak s ts)
      (submoduleTmp m s) data ck fs (submoduleBak_ne s ts m) (submoduleTmp_ne m s)

/-- Witness for C1: a stale-checksum module write on a concrete one-file
    file system leaves the file system untouched. -/
theorem c1_checksum_guarded_writes_witness :
    write_module_config { hashFn := fun _ => "h0", dumpOk := true, renameOk := true }
      "20240101_000000" "Apache" { uniquekey := none, period := none, includeSubModules := none }
      "stale"
      [(modulePath "Apache", .mapping { uniquekey := none, period := none,
                                        includeSubModules := none })] =
      (.error .concurrentModification,
        [(modulePath "Apache", .mapping { uniquekey := none, period := none,
                                          includeSubModules := none })],
        [.readF (modulePath "Apache")]) :=
  (c1_checksum_guarded_writes { hashFn := fun _ => "h0", dumpOk := true, renameOk := true }
      "20240101_000000" "Apache" "s" { uniquekey := none, period := none,
                                       includeSubModules := none } "stale" _).2.1.1
    (.mapping { uniquekey := none, period := none, includeSubModules := none })
    (by decide) (by decide)

/-- **C7.** `update_module_uniquekey` and `update_submodule_uniquekey`
    fail with the out-of-range error exactly when the supplied value is
    outside `[1, MAX_UNIQUE_KEY]`; in that case no read, backup or write
    happens (the state is unchanged and the event trace is empty); with an
    existing mapping document, a matching checksum and working oracles,
    `MAX_UNIQUE_KEY` itself succeeds. -/
theorem c7_uniquekey_bounds (env : EditorEnv) (ts m s ck : String) (v : Int) (fs : FS) :
    (((update_module_uniquekey env ts m v ck fs).1 = .error .outOfRange ↔
        (v < 1 ∨ MAX_UNIQUE_KEY < v))
      ∧ ((v < 1 ∨ MAX_UNIQUE_KEY < v) →
          update_module_uniquekey env ts m v ck fs = (.error .outOfRange, fs, []))
      ∧ (∀ c : ConfData, lookupFS fs (modulePath m) = some (.mapping c) →
          c.uniquekey ≠ some .nonDict → env.hashFn (.mapping c) = ck →
          env.dumpOk = true → env.renameOk = true →
          (update_module_uniquekey env ts m MAX_UNIQUE_KEY ck fs).1 =
            .ok { new_checksum := env.hashFn (.mapping { c with
                    uniquekey := some (.dict (some MAX_UNIQUE_KEY)) }),
                  backup_path := moduleBak ts }))
  ∧ (((update_submodule_uniquekey env ts m s v ck fs).1 = .error .outOfRange ↔
        (v < 1 ∨ MAX_UNIQUE_KEY < v))
      ∧ ((v < 1 ∨ MAX_UNIQUE_KEY < v) →
          update_submodule_uniquekey env ts m s v ck fs = (.error .outOfRange, fs, []))
      ∧ (∀ c : ConfData, lookupFS fs (submodulePath m s) = some (.mapping c) →
          c.uniquekey ≠ some .nonDict → env.hashFn (.mapping c) = ck →
          env.dumpOk = true → env.renameOk = true →
          (update_submodule_uniquekey env ts m s MAX_UNIQUE_KEY ck fs).1 =
            .ok { new_checksum := env.hashFn (.mapping { c with
                    uniquekey := some (.dict (some MAX_UNIQUE_KEY)) }),
                  backup_path := submoduleBak s ts })) := by
  have hmaxrange : ¬ (MAX_UNIQUE_KEY < 1 ∨ MAX_UNIQUE_KEY < MAX_UNIQUE_KEY) := by
    rw [MAX_UNIQUE_KEY]
    decide
  refine ⟨⟨⟨?_, ?_⟩, ?_, ?_⟩, ⟨⟨?_, ?_⟩, ?_, ?_⟩⟩
  · intro hres
    by_contra hrange
    exact update_uniquekey_file_inRange env (modulePath m) (moduleBak ts) (moduleTmp m) v ck fs
      hrange hres
  · intro h
    rw [update_module_uniquekey,
      update_uniquekey_file_outOfRange env (modulePath m) (moduleBak ts) (moduleTmp m) v ck fs h]
  · intro h
    rw [update_module_uniquekey,
      update_uniquekey_file_outOfRange env (modulePath m) (moduleBak ts) (moduleTmp m) v ck fs h]
  · intro c hlook hnd hck hdump hren
    exact update_uniquekey_file_ok env (modulePath m) (moduleBak ts) (moduleTmp m)
      MAX_UNIQUE_KEY ck fs c hmaxrange hlook hnd hck hdump hren
  · intro hres
    by_contra hrange
    exact update_uniquekey_file_inRange env (submodulePath m s) (submoduleBak s ts)
      (submoduleTmp m s) v ck fs hrange hres
  · intro h
    rw [update_submodule_uniquekey,
      update_uniquekey_file_outOfRange env (submodulePath m s) (submoduleBak s ts)
        (submoduleTmp m s) v ck fs h]
  · intro h
    rw [update_submodule_uniquekey,
      update_uniquekey_file_outOfRange env (submodulePath m s) (submoduleBak s ts)
        (submoduleTmp m s) v ck fs h]
  · intro c hlook hnd hck hdump hren
    exact update_uniquekey_file_ok env (submodulePath m s) (submoduleBak s ts)
      (submoduleTmp m s) MAX_UNIQUE_KEY ck fs c hmaxrange hlook hnd hck hdump hren

/-- Witness for C7: on a concrete one-file system, setting the key to 0
    fails out-of-range with an empty trace, `MAX_UNIQUE_KEY + 1` fails the
    same way, and `MAX_UNIQUE_KEY` itself succeeds. -/
theorem c7_uniquekey_bounds_witness :
    update_module_uniquekey { hashFn := fun _ => "h0", dumpOk := true, renameOk := true }
        "ts" "Apache" 0 "h0"
        [(modulePath "Apache", .mapping { uniquekey := none, period := none,
                                          includeSubModules := none })] =
      (.error .outOfRange,
        [(modulePath "Apache", .mapping { uniquekey := none, period := none,
                                          includeSubModules := none })], [])
  ∧ (update_module_uniquekey { hashFn := fun _ => "h0", dumpOk := true, renameOk := true }
        "ts" "Apache" (MAX_UNIQUE_KEY + 1) "h0"
        [(modulePath "Apache", .mapping { uniquekey := none, period := none,
                                          includeSubModules := none })]).1 =
      .error .outOfRange
  ∧ (update_module_uniquekey { hashFn := fun _ => "h0", dumpOk := true, renameOk := true }
        "ts" "Apache" MAX_UNIQUE_KEY "h0"
        [(modulePath "Apache", .mapping { uniquekey := none, period := none,
                                          includeSubModules := none })]).1 =
      .ok { new_checksum := "h0", backup_path := moduleBak "ts" } := by
  have h1 := (c7_uniquekey_bounds { hashFn := fun _ => "h0", dumpOk := true, renameOk := true }
    "ts" "Apache" "s" "h0" 0
    [(modulePath "Apache", .mapping { uniquekey := none, period := none,
                                      includeSubModules := none })]).1.2.1
    (Or.inl (by decide))
  have h2 := (c7_uniquekey_bounds { hashFn := fun _ => "h0", dumpOk := true, renameOk := true }
    "ts" "Apache" "s" "h0" (MAX_UNIQUE_KEY + 1)
    [(modulePath "Apache", .mapping { uniquekey := none, period := none,
                                      includeSubModules := none })]).1.1.mpr
    (Or.inr (by rw [MAX_UNIQUE_KEY]; decide))
  have h3 := (c7_uniquekey_bounds { hashFn := fun _ => "h0", dumpOk := true, renameOk := true }
    "ts" "Apache" "s" "h0" 1
    [(modulePath "Apache", .mapping { uniquekey := none, period := none,
                                      includeSubModules := none })]).1.2.2
    { uniquekey := none, period := none, includeSubModules := none }
    (by decide) (by decide) rfl rfl rfl
  exact ⟨h1, h2, h3⟩

/-! ## Cluster manager (src/core/cluster_manager.py)

Snapshot trees, submodule discovery and the remote bulk edit.  Generic
association maps model Python dicts (insertion order kept, assignment to
an existing key updates in place). -/

def lookupA {α : Type} : List (String × α) → String → Option α
  | [], _ => none
  | (q, c) :: rest, p => if q = p then some c else lookupA rest p

def setA {α : Type} : List (String × α) → String → α → List (String × α)
  | [], p, c => [(p, c)]
  | (q, d) :: rest, p, c => if q = p then (p, c) :: rest else (q, d) :: setA rest p c

theorem lookupA_setA_self {α : Type} (l : List (String × α)) (p : String) (c : α) :
    lookupA (setA l p c) p = some c := by
  induction l with
  | nil => simp [setA, lookupA]
  | cons e rest ih =>
    obtain ⟨q, d⟩ := e
    by_cases h : q = p
    · simp [setA, h, lookupA]
    · simp [setA, h, lookupA, ih]

theorem lookupA_setA_ne {α : Type} (l : List (String × α)) (p q : String) (c : α)
    (h : q ≠ p) : lookupA (setA l p c) q = lookupA l q := by
  induction l with
  | nil => simp [setA, lookupA, Ne.symm h]
  | cons e rest ih =>
    obtain ⟨a, d⟩ := e
    by_cases ha : a = p
    · subst ha
      simp [setA, lookupA, Ne.symm h]
    · simp [setA, ha, lookupA, ih]

theorem lookupFS_eq_none_iff (l : FS) (p : String) :
    lookupFS l p = none ↔ ∀ e ∈ l, e.1 ≠ p := by
  induction l with
  | nil => simp [lookupFS]
  | cons e rest ih =>
    obtain ⟨q, d⟩ := e
    by_cases h : q = p
    · subst h
      simp [lookupFS]
    · simp [lookupFS, h, ih]

theorem lookupFS_of_mem {l : FS} {p : String} {d : YDoc}
    (hnd : (l.map Prod.fst).Nodup) (hm : (p, d) ∈ l) : lookupFS l p = some d := by
  induction l with
  | nil => simp at hm
  | cons e rest ih =>
    obtain ⟨q, c⟩ := e
    rw [List.map_cons, List.nodup_cons] at hnd
    rcases List.mem_cons.mp hm with he | hm2
    · rw [Prod.mk.injEq] at he
      obtain ⟨h1, h2⟩ := he
      subst h1
      subst h2
      simp [lookupFS]
    · have hq : q ≠ p := by
        intro h
        subst h
        exact hnd.1 (List.mem_map.mpr ⟨(q, d), hm2, rfl⟩)
      simp [lookupFS, hq, ih hnd.2 hm2]

/-- A module directory in a snapshot tree: its `conf.yml` (when present)
    and the sibling `.yml` files by stem (`conf.yml` excluded, matching the
    wildcard glob). -/
structure ModuleFS where
  name : String
  conf : Option YDoc
  files : FS

/-- `Include_sub_modules` as read by `get_all_submodule_configs`:
    absent ↦ `[]`, a plain string is wrapped into a one-element list. -/
def includedList (c : ConfData) : List String :=
  match c.includeSubModules with
  | none => []
  | some (.one s) => [s]
  | some (.many l) => l

/-- Model of `ClusterManager._has_unique_key_config`. -/
def hasUniqueKeyConfig : YDoc → Bool
  | .mapping c =>
    match c.uniquekey with
    | some (.dict (some _)) => true
    | _ => false
  | _ => false

/-- One discovery entry (`file_path`/`raw_content` are omitted: they are
    byte-level reflections of the same file). -/
structure SubConfigInfo where
  doc : YDoc
  hasUK : Bool
deriving DecidableEq

/-- Model of `ClusterManager._process_submodule_file`: parse failure is
    logged and the file skipped; otherwise the entry is recorded under
    `module/submodule`. -/
def processSubmoduleFile (mname sname : String) (d : YDoc)
    (acc : List (String × SubConfigInfo)) : List (String × SubConfigInfo) :=
  match d with
  | .malformed => acc
  | _ => setA acc (mname ++ "/" ++ sname) { doc := d, hasUK := hasUniqueKeyConfig d }

/-- The wildcard branch: process every sibling `.yml` file. -/
def wildcardFold (mn : String) (files : FS) (acc : List (String × SubConfigInfo)) :
    List (String × SubConfigInfo) :=
  files.foldl (fun a3 fd => processSubmoduleFile mn fd.1 fd.2 a3) acc

/-- Processing of one `Include_sub_modules` entry: `"*"` surfaces every
    sibling `.yml` file, an explicit name is looked up and silently skipped
    when the file does not exist. -/
def discoverStep (mn : String) (files : FS) (acc : List (String × SubConfigInfo))
    (subName : String) : List (String × SubConfigInfo) :=
  if subName = "*" then wildcardFold mn files acc
  else
    match lookupFS files subName with
    | some fd => processSubmoduleFile mn subName fd acc
    | none => acc

/-- Model of `ClusterManager.get_all_submodule_configs` over a snapshot:
    for each module directory with a parseable mapping `conf.yml`, process
    the `Include_sub_modules` entries (a module without `conf.yml`, or whose
    `conf.yml` fails to parse or is not a mapping, is skipped by the
    per-module exception handler). -/
def get_all_submodule_configs (snapshot : List ModuleFS) :
    List (String × SubConfigInfo) :=
  snapshot.foldl (fun acc md =>
    match md.conf with
    | none => acc
    | some .malformed => acc
    | some .nonMapping => acc
    | some (.mapping mc) => (includedList mc).foldl (discoverStep md.name md.files) acc) []

/-! ### Discovery lemmas -/

theorem string_append_left_cancel {a x y : String} (h : a ++ x = a ++ y) : x = y := by
  have hd := congrArg String.data h
  rw [String.data_append, String.data_append] at hd
  have hxy := List.append_cancel_left hd
  cases x with
  | mk dx =>
    cases y with
    | mk dy => exact congrArg String.mk (by simpa using hxy)

theorem key_ne {mn n₀ n : String} (h : n₀ ≠ n) : mn ++ "/" ++ n₀ ≠ mn ++ "/" ++ n :=
  fun he => h (string_append_left_cancel he)

theorem lookupA_process_self (mn n : String) (d : YDoc)
    (acc : List (String × SubConfigInfo)) (hd : d ≠ .malformed) :
    lookupA (processSubmoduleFile mn n d acc) (mn ++ "/" ++ n) =
      some { doc := d, hasUK := hasUniqueKeyConfig d } := by
  cases d with
  | malformed => exact absurd rfl hd
  | nonMapping => exact lookupA_setA_self acc _ _
  | mapping c => exact lookupA_setA_self acc _ _

theorem lookupA_process_ne (mn n : String) (d : YDoc)
    (acc : List (String × SubConfigInfo)) (k : String) (hk : k ≠ mn ++ "/" ++ n) :
    lookupA (processSubmoduleFile mn n d acc) k = lookupA acc k := by
  cases d with
  | malformed => rfl
  | nonMapping => exact lookupA_setA_ne acc _ _ _ hk
  | mapping c => exact lookupA_setA_ne acc _ _ _ hk

theorem lookupA_process_cases (mn n : String) (d : YDoc)
    (acc : List (String × SubConfigInfo)) (k : String) (v : SubConfigInfo)
    (h : lookupA (processSubmoduleFile mn n d acc) k = some v) :
    k = mn ++ "/" ++ n ∨ lookupA acc k = some v := by
  by_cases hk : k = mn ++ "/" ++ n
  · exact Or.inl hk
  · rw [lookupA_process_ne mn n d acc k hk] at h
    exact Or.inr h

theorem wildcardFold_cons (mn : String) (e : String × YDoc) (rest : FS)
    (acc : List (String × SubConfigInfo)) :
    wildcardFold mn (e :: rest) acc =
      wildcardFold mn rest (processSubmoduleFile mn e.1 e.2 acc) := rfl

theorem wildcardFold_lookup_ne (mn : String) (files : FS) (k : String)
    (hk : ∀ e ∈ files, k ≠ mn ++ "/" ++ e.1) :
    ∀ acc, lookupA (wildcardFold mn files acc) k = lookupA acc k := by
  induction files with
  | nil => intro acc; rfl
  | cons e rest ih =>
    intro acc
    rw [wildcardFold_cons]
    rw [ih (fun f hf => hk f (List.mem_cons_of_mem _ hf)) _,
      lookupA_process_ne mn e.1 e.2 acc k (hk e (List.mem_cons_self _ _))]

theorem wildcardFold_lookup (mn : String) (files : FS) (n : String) (d : YDoc) :
    (files.map Prod.fst).Nodup → (n, d) ∈ files → d ≠ .malformed →
    ∀ acc, lookupA (wildcardFold mn files acc) (mn ++ "/" ++ n) =
      some { doc := d, hasUK := hasUniqueKeyConfig d } := by
  induction files with
  | nil => intro _ hm; simp at hm
  | cons e rest ih =>
    intro hnd hm hdm acc
    obtain ⟨n₀, d₀⟩ := e
    rw [List.map_cons, List.nodup_cons] at hnd
    rw [wildcardFold_cons]
    rcases List.mem_cons.mp hm with he | hm2
    · rw [Prod.mk.injEq] at he
      obtain ⟨h1, h2⟩ := he
      subst h1
      subst h2
      rw [wildcardFold_lookup_ne mn rest _ ?_ _]
      · exact lookupA_process_self mn n d acc hdm
      · intro f hf
        refine key_ne ?_
        intro hfn
        exact hnd.1 (List.mem_map.mpr ⟨f, hf, hfn.symm⟩)
    · exact ih hnd.2 hm2 hdm _

theorem discoverStep_stable (mn : String) (files : FS)
    (acc : List (String × SubConfigInfo)) (sub n : String) (d : YDoc)
    (hnd : (files.map Prod.fst).Nodup) (hm : (n, d) ∈ files) (hdm : d ≠ .malformed)
    (hv : lookupA acc (mn ++ "/" ++ n) = some { doc := d, hasUK := hasUniqueKeyConfig d }) :
    lookupA (discoverStep mn files acc sub) (mn ++ "/" ++ n) =
      some { doc := d, hasUK := hasUniqueKeyConfig d } := by
  rw [discoverStep]
  split_ifs with hstar
  · exact wildcardFold_lookup mn files n d hnd hm hdm acc
  · cases hl : lookupFS files sub with
    | none => exact hv
    | some fd =>
      by_cases hsn : sub = n
      · subst hsn
        have hfd : fd = d := by
          rw [lookupFS_of_mem hnd hm] at hl
          exact (Option.some.inj hl).symm
        subst hfd
        exact lookupA_process_self mn sub fd acc hdm
      · rw [lookupA_process_ne mn sub fd acc _ (key_ne (Ne.symm hsn))]
        exact hv

theorem discoverFold_stable (mn : String) (files : FS) (l : List String)
    (n : String) (d : YDoc)
    (hnd : (files.map Prod.fst).Nodup) (hm : (n, d) ∈ files) (hdm : d ≠ .malformed) :
    ∀ acc, lookupA acc (mn ++ "/" ++ n) = some { doc := d, hasUK := hasUniqueKeyConfig d } →
    lookupA (l.foldl (discoverStep mn files) acc) (mn ++ "/" ++ n) =
      some { doc := d, hasUK := hasUniqueKeyConfig d } := by
  induction l with
  | nil => exact fun acc hv => hv
  | cons x rest ih =>
    intro acc hv
    rw [List.foldl_cons]
    exact ih _ (discoverStep_stable mn files acc x n d hnd hm hdm hv)

theorem discoverFold_wildcard (mn : String) (files : FS) (l : List String)
    (n : String) (d : YDoc)
    (hstar : "*" ∈ l) (hnd : (files.map Prod.fst).Nodup) (hm : (n, d) ∈ files)
    (hdm : d ≠ .malformed) :
    ∀ acc, lookupA (l.foldl (discoverStep mn files) acc) (mn ++ "/" ++ n) =
      some { doc := d, hasUK := hasUniqueKeyConfig d } := by
  induction l with
  | nil => simp at hstar
  | cons x rest ih =>
    intro acc
    rw [List.foldl_cons]
    rcases List.mem_cons.mp hstar with rfl | hstar2
    · refine discoverFold_stable mn files rest n d hnd hm hdm _ ?_
      rw [discoverStep, if_pos rfl]
      exact wildcardFold_lookup mn files n d hnd hm hdm acc
    · exact ih hstar2 _

theorem discoverFold_named (mn : String) (files : FS) (l l₀ : List String)
    (hsub : ∀ x ∈ l, x ∈ l₀ ∧ x ≠ "*") :
    ∀ acc, (∀ k v, lookupA acc k = some v → ∃ n ∈ l₀, k = mn ++ "/" ++ n) →
    ∀ k v, lookupA (l.foldl (discoverStep mn files) acc) k = some v →
      ∃ n ∈ l₀, k = mn ++ "/" ++ n := by
  induction l with
  | nil => exact fun acc hacc => hacc
  | cons x rest ih =>
    intro acc hacc
    rw [List.foldl_cons]
    refine ih (fun y hy => hsub y (List.mem_cons_of_mem _ hy)) _ ?_
    intro k v hk
    obtain ⟨hx0, hxs⟩ := hsub x (List.mem_cons_self _ _)
    rw [discoverStep, if_neg hxs] at hk
    cases hl : lookupFS files x with
    | none =>
      rw [hl] at hk
      exact hacc k v hk
    | some fd =>
      rw [hl] at hk
      rcases lookupA_process_cases mn x fd acc k v hk with rfl | h2
      · exact ⟨x, hx0, rfl⟩
      · exact hacc k v h2

theorem discoverFold_missing (mn : String) (files : FS) (l : List String) (n : String)
    (hmiss : lookupFS files n = none) :
    ∀ acc, lookupA acc (mn ++ "/" ++ n) = none →
    lookupA (l.foldl (discoverStep mn files) acc) (mn ++ "/" ++ n) = none := by
  induction l with
  | nil => exact fun acc hacc => hacc
  | cons x rest ih =>
    intro acc hacc
    rw [List.foldl_cons]
    refine ih _ ?_
    rw [discoverStep]
    split_ifs with hstar
    · rw [wildcardFold_lookup_ne mn files _ ?_ _]
      · exact hacc
      · intro e he
        refine key_ne ?_
        intro hen
        rw [lookupFS_eq_none_iff] at hmiss
        exact hmiss e he hen.symm
    · cases hl : lookupFS files x with
      | none => exact hacc
      | some fd =>
        have hxn : x ≠ n := by
          intro h
          subst h
          rw [hl] at hmiss
          exact Option.noConfusion hmiss
        rw [lookupA_process_ne mn x fd acc _ (key_ne (Ne.symm hxn))]
        exact hacc

theorem get_all_single (M : ModuleFS) (mc : ConfData)
    (hconf : M.conf = some (.mapping mc)) :
    get_all_submodule_configs [M] =
      (includedList mc).foldl (discoverStep M.name M.files) [] := by
  rw [get_all_submodule_configs, List.foldl_cons, List.foldl_nil, hconf]

/-- **C8 (counterexample).** The claim says a wildcard module surfaces
    *every* `.yml` file except `conf.yml`; a file whose content fails to
    parse as YAML is in fact skipped by `_process_submodule_file` and gets
    no entry. -/
theorem c8_counterexample :
    get_all_submodule_configs
        [{ name := "M",
           conf := some (.mapping { uniquekey := none, period := none,
                                    includeSubModules := some (.one "*") }),
           files := [("bad", .malformed)] }] = []
  ∧ lookupA (get_all_submodule_configs
        [{ name := "M",
           conf := some (.mapping { uniquekey := none, period := none,
                                    includeSubModules := some (.one "*") }),
           files := [("bad", .malformed)] }]) ("M" ++ "/" ++ "bad") = none := by
  constructor <;> rfl

/-- **C8 (amended).** For a module whose `conf.yml` parses to a mapping:
    with the wildcard in `Include_sub_modules`, every sibling `.yml` file
    whose content parses as YAML is surfaced under `module/stem` with its
    unique-key eligibility flag; with an explicit list (no wildcard), every
    surfaced key comes from a named entry even when other files exist
    alongside; and a name whose file does not exist on disk yields no entry
    and no error. -/
theorem c8_submodule_discovery (M : ModuleFS) (mc : ConfData)
    (hconf : M.conf = some (.mapping mc)) (hnd : (M.files.map Prod.fst).Nodup) :
    (("*" ∈ includedList mc) → ∀ n d, (n, d) ∈ M.files → d ≠ .malformed →
        lookupA (get_all_submodule_configs [M]) (M.name ++ "/" ++ n) =
          some { doc := d, hasUK := hasUniqueKeyConfig d })
  ∧ (("*" ∉ includedList mc) → ∀ k v,
        lookupA (get_all_submodule_configs [M]) k = some v →
        ∃ n ∈ includedList mc, k = M.name ++ "/" ++ n)
  ∧ (∀ n, lookupFS M.files n = none →
        lookupA (get_all_submodule_configs [M]) (M.name ++ "/" ++ n) = none) := by
  rw [get_all_single M mc hconf]
  refine ⟨?_, ?_, ?_⟩
  · intro hstar n d hm hdm
    exact discoverFold_wildcard M.name M.files (includedList mc) n d hstar hnd hm hdm []
  · intro hstar k v
    refine discoverFold_named M.name M.files (includedList mc) (includedList mc)
      (fun x hx => ⟨hx, ?_⟩) [] (fun k' v' hk' => absurd hk' (by simp [lookupA])) k v
    intro hxs
    exact hstar (hxs ▸ hx)
  · intro n hmiss
    exact discoverFold_missing M.name M.files (includedList mc) n hmiss [] rfl

/-- Witness for C8: the wildcard clause applied to a concrete module with
    one parseable submodule file. -/
theorem c8_submodule_discovery_witness :
    lookupA (get_all_submodule_configs
        [{ name := "M",
           conf := some (.mapping { uniquekey := none, period := none,
                                    includeSubModules := some (.one "*") }),
           files := [("a", .mapping { uniquekey := some (.dict (some 7)), period := none,
                                      includeSubModules := none })] }])
      ("M" ++ "/" ++ "a") =
      some { doc := .mapping { uniquekey := some (.dict (some 7)), period := none,
                               includeSubModules := none },
             hasUK := true } := by
  have h := (c8_submodule_discovery
    { name := "M",
      conf := some (.mapping { uniquekey := none, period := none,
                               includeSubModules := some (.one "*") }),
      files := [("a", .mapping { uniquekey := some (.dict (some 7)), period := none,
                                 includeSubModules := none })] }
    { uniquekey := none, period := none, includeSubModules := some (.one "*") }
    rfl (by decide)).1 (by decide)
    "a" (.mapping { uniquekey := some (.dict (some 7)), period := none,
                    includeSubModules := none })
    (by decide) (by decide)
  exact h

/-! ### Remote bulk edit (`bulk_edit_submodule_unique_keys`) -/

/-- A registered node, as read from `nodes.yaml`. -/
structure CNode where
  enabled : Bool
  conf_dir : String

/-- Transport failure injection for `sftp.get` / `sftp.put` per remote
    path (`true` = the call succeeds when the file exists). -/
structure Transport where
  getOk : String → Bool
  putOk : String → Bool

/-- Python `path.split('/', 1)`: split at the first slash, `none` when
    there is no slash (the two-name unpacking then raises `ValueError`). -/
def splitFirstSlash : List Char → Option (List Char × List Char)
  | [] => none
  | c :: cs =>
    if c = '/' then some ([], cs)
    else (splitFirstSlash cs).map (fun pr => (c :: pr.1, pr.2))

/-- The remote file path `{conf_dir}/{module}/{submodule}.yml`. -/
def remoteSubPath (conf_dir : String) (mcs scs : List Char) : String :=
  conf_dir ++ "/" ++ String.mk mcs ++ "/" ++ String.mk scs ++ ".yml"

/-- `yaml.safe_load(...) or {}` followed by the unique-key mutation
    (creating or overwriting the section, replacing a non-mapping section
    by a fresh dict); `none` models the exceptions a malformed or
    non-mapping document raises inside the per-item `try`. -/
def bulkUpdateDoc (d : YDoc) (v : Int) : Option ConfData :=
  match d with
  | .malformed => none
  | .nonMapping => none
  | .mapping c => some { c with uniquekey := some (.dict (some v)) }

/-- One item of the bulk edit: split the path, fetch the remote file into a
    scratch temp file, rewrite the unique key, push the file back; any
    failure marks the item `false`; the `finally` always unlinks the
    scratch file (tagged by the item path). -/
def bulkItem (tr : Transport) (conf_dir : String) (remote : FS) (path : String) (v : Int) :
    Bool × FS × List FEvent :=
  match splitFirstSlash path.data with
  | none => (false, remote, [])
  | some (mcs, scs) =>
    let rp := remoteSubPath conf_dir mcs scs
    if ¬ tr.getOk rp then (false, remote, [.writeTemp path, .unlink path])
    else
      match lookupFS remote rp with
      | none => (false, remote, [.writeTemp path, .unlink path])
      | some d =>
        match bulkUpdateDoc d v with
        | none => (false, remote, [.writeTemp path, .unlink path])
        | some c =>
          if tr.putOk rp then
            (true, setFS remote rp (.mapping c), [.writeTemp path, .unlink path])
          else (false, remote, [.writeTemp path, .unlink path])

/-- Model of `ClusterManager.bulk_edit_submodule_unique_keys`.  An unknown
    or disabled node, a failed connection — or, with `create_backup = true`
    (the Python default), the `AttributeError` raised by the undefined
    `self.create_node_backup` and swallowed by the blanket `except` —
    fail the whole batch; otherwise the items are processed independently
    in order, each recorded in the result map. -/
def bulk_edit_submodule_unique_keys (nodes : List (String × CNode)) (tr : Transport)
    (connectOk : Bool) (remote : FS) (node_name : String)
    (updates : List (String × Int)) (create_backup : Bool) :
    List (String × Bool) × FS × List FEvent :=
  match lookupA nodes node_name with
  | none => (updates.map (fun u => (u.1, false)), remote, [])
  | some node =>
    if ¬ node.enabled then (updates.map (fun u => (u.1, false)), remote, [])
    else if create_backup then
      (updates.map (fun u => (u.1, false)), remote, [])
    else if ¬ connectOk then (updates.map (fun u => (u.1, false)), remote, [])
    else
      updates.foldl (fun acc item =>
        let r := bulkItem tr node.conf_dir acc.2.1 item.1 item.2
        (acc.1 ++ [(item.1, r.1)], r.2.1, acc.2.2 ++ r.2.2))
        ([], remote, [])

/-- **C10.** The remote bulk-edit path applies no range validation to the
    new unique-key value: for every integer `v` — including 0, negatives
    and values above `MAX_UNIQUE_KEY` — the item succeeds and `v` is
    written verbatim as `uniquekey.NumUniqKey` into the remote submodule
    file; the `[1, MAX_UNIQUE_KEY]` bound of the local mutators is absent
    here. -/
theorem c10_bulk_edit_no_validation (v : Int) (c : ConfData) :
    (bulk_edit_submodule_unique_keys [("node1", { enabled := true, conf_dir := "conf.d" })]
        { getOk := fun _ => true, putOk := fun _ => true } true
        [("conf.d/Apache/status.yml", .mapping c)] "node1" [("Apache/status", v)] false).1 =
      [("Apache/status", true)]
  ∧ lookupFS (bulk_edit_submodule_unique_keys
        [("node1", { enabled := true, conf_dir := "conf.d" })]
        { getOk := fun _ => true, putOk := fun _ => true } true
        [("conf.d/Apache/status.yml", .mapping c)] "node1"
        [("Apache/status", v)] false).2.1
      "conf.d/Apache/status.yml" =
      some (.mapping { c with uniquekey := some (.dict (some v)) }) :=
  ⟨rfl, rfl⟩

def bulkExampleConf : ConfData := { uniquekey := none, period := none, includeSubModules := none }

def bulkExampleRemote : FS :=
  [("conf.d/M/a.yml", .mapping bulkExampleConf), ("conf.d/M/b.yml", .mapping bulkExampleConf),
   ("conf.d/M/c.yml", .mapping bulkExampleConf)]

def bulkExampleUpdates : List (String × Int) := [("M/a", 5), ("M/b", 6), ("M/c", 7)]

/-- **C3.** Evaluation of the bulk edit at the failing input: with the
    Python-default `create_backup = True`, a healthy 3-item batch against a
    registered, enabled node with a working connection and transport
    reports every item `false` without attempting any of them — the
    undefined `self.create_node_backup` raises `AttributeError`, swallowed
    by the blanket `except` that fails the whole batch.  With
    `create_backup = False` the behavior the claim describes holds: a
    simulated transport failure on item 2 yields exactly one `false` and
    two `true` entries, and every scratch temp file is cleaned up. -/
theorem c3_bulk_edit_backup_bug :
    bulk_edit_submodule_unique_keys [("node1", { enabled := true, conf_dir := "conf.d" })]
        { getOk := fun _ => true, putOk := fun _ => true } true bulkExampleRemote "node1"
        bulkExampleUpdates true =
      ([("M/a", false), ("M/b", false), ("M/c", false)], bulkExampleRemote, [])
  ∧ (bulk_edit_submodule_unique_keys [("node1", { enabled := true, conf_dir := "conf.d" })]
        { getOk := fun p => p != "conf.d/M/b.yml", putOk := fun _ => true } true
        bulkExampleRemote "node1" bulkExampleUpdates false).1 =
      [("M/a", true), ("M/b", false), ("M/c", true)]
  ∧ (bulk_edit_submodule_unique_keys [("node1", { enabled := true, conf_dir := "conf.d" })]
        { getOk := fun p => p != "conf.d/M/b.yml", putOk := fun _ => true } true
        bulkExampleRemote "node1" bulkExampleUpdates false).2.2 =
      [.writeTemp "M/a", .unlink "M/a", .writeTemp "M/b", .unlink "M/b",
       .writeTemp "M/c", .unlink "M/c"] :=
  ⟨rfl, rfl, rfl⟩

end VuData
